import Mathlib

/-!
# tinytetris_multi: the room registry of `server/main.go`

A shallow embedding of the Go server.  Pointers are addresses into two heaps
(`*Room`, `*Player`), Go maps are association lists (the order of a list is one
iteration order of the map, and every statement holds for every order), a
`sync.Mutex` is a boolean that is `true` while the mutex is held, and a `Lock()`
call on a held mutex never returns (outcome `blocked`).  A `*Player` stored in a
room and the `Conn` of a player may be nil (`none`), and using either panics;
a room is an object made by `CreateRoom` or `JoinRoom`, with its map.
An operation threads
an execution state holding the server, the `WriteJSON` calls made so far and
the `Lock`/`Unlock` calls made so far.  Operations run one at a time; a
statement about what a call returns is made for a call that finds the mutexes
it locks free.  The upgrade of the connection and the printing are left out.
-/

namespace TinyTetris

/-! ## Go maps with string keys -/

/-- The lookup `m[k]` of a Go map, with its `exists` flag as the option. -/
def mapGet {α : Type} : List (String × α) → String → Option α
  | [], _ => none
  | (k', v) :: rest, k => if k' = k then some v else mapGet rest k

/-- The assignment `m[k] = v` of a Go map. -/
def mapSet {α : Type} : List (String × α) → String → α → List (String × α)
  | [], k, v => [(k, v)]
  | (k', v') :: rest, k, v =>
    if k' = k then (k, v) :: rest else (k', v') :: mapSet rest k v

/-- The builtin `delete(m, k)` of a Go map. -/
def mapDel {α : Type} (m : List (String × α)) (k : String) : List (String × α) :=
  m.filter (fun e => decide (e.1 ≠ k))

/-! ## Data model -/

/-- The Go type `[20][10]int`, row by row. -/
abbrev Grid := List (List Int)

/-- The zero value of `[20][10]int`. -/
def zeroGrid : Grid := List.replicate 20 (List.replicate 10 0)

/-- The struct `Player`; `Conn` is the handle of the websocket connection, or
`none` for a nil `*websocket.Conn`. -/
structure Player where
  ID : String
  Name : String
  Conn : Option Nat
  IsReady : Bool
  Score : Int
  Field : Grid
deriving DecidableEq

/-- The struct `GameState`. -/
structure GameState where
  PlayerID : String
  Field : Grid
  CurrentBlock : String
  Score : Int
deriving DecidableEq

/-- The struct `Room`; `Players` maps a player ID to a `*Player`: the address of
a `Player`, or `none` for the nil pointer. -/
structure Room where
  ID : String
  Players : List (String × Option Nat)
  Mutex : Bool
  GameStarted : Bool
deriving DecidableEq

/-- The struct `Server` together with the heap its pointers point into:
`Rooms` maps a room ID to the address of a `Room`, `roomAt` and `playerAt` are
the objects stored at each address, and `roomCount`/`playerCount` are the
numbers of objects allocated so far (the next fresh addresses). -/
structure Server where
  Rooms : List (String × Nat)
  Mutex : Bool
  roomAt : Nat → Room
  playerAt : Nat → Player
  roomCount : Nat
  playerCount : Nat

/-- The zero value of `Player`: no name, no connection. -/
def Player.zero : Player := ⟨"", "", none, false, 0, zeroGrid⟩

/-- What the heap of a new server holds at an address where no room has been
allocated yet. -/
def Room.zero : Room := ⟨"", [], false, false⟩

/-- The function `NewServer`. -/
def NewServer : Server :=
  { Rooms := [], Mutex := false, roomAt := fun _ => Room.zero,
    playerAt := fun _ => Player.zero, roomCount := 0, playerCount := 0 }

/-! ## Executions -/

/-- The two levels of mutex: `s.Mutex` and the `Mutex` of the room at an address. -/
inductive LockId
  | server
  | room (addr : Nat)
deriving DecidableEq

/-- A call of `Lock()` or of `Unlock()` on a mutex. -/
inductive LockEv
  | lock (m : LockId)
  | unlock (m : LockId)
deriving DecidableEq

/-- One call `player.Conn.WriteJSON(state)` on a connection: the address of the
player it is made for, that player's connection, the state written and whether
the call returned an error. -/
structure Send where
  dest : Nat
  conn : Nat
  state : GameState
  failed : Bool
deriving DecidableEq

/-- What an operation has done so far. -/
structure Exec where
  srv : Server
  sends : List Send
  locks : List LockEv

/-- How a call ends: it returns, it blocks for ever in `Lock()` on a held
mutex, or it panics. -/
inductive Outcome (α : Type)
  | returned (a : α)
  | blocked (m : LockId)
  | panicked
deriving DecidableEq

/-- The result of running a call: how it ended and the execution state then. -/
structure Res (α : Type) where
  out : Outcome α
  ex : Exec

/-- Start of an operation on server `s`: nothing sent, no lock call made. -/
def Exec.start (s : Server) : Exec := ⟨s, [], []⟩

/-- Record a `Lock()` call. -/
def Exec.callLock (e : Exec) (m : LockId) : Exec :=
  { e with locks := e.locks ++ [LockEv.lock m] }

/-- Store into the room object at address `a`. -/
def Server.putRoom (s : Server) (a : Nat) (r : Room) : Server :=
  { s with roomAt := fun b => if b = a then r else s.roomAt b }

/-- Store into the player object at address `a`. -/
def Server.putPlayer (s : Server) (a : Nat) (p : Player) : Server :=
  { s with playerAt := fun b => if b = a then p else s.playerAt b }

/-- The mutex `s.Mutex` becomes held. -/
def Exec.holdServer (e : Exec) : Exec :=
  { e with srv := { e.srv with Mutex := true } }

/-- The call `s.Mutex.Unlock()`. -/
def Exec.unlockServer (e : Exec) : Exec :=
  { e with srv := { e.srv with Mutex := false },
           locks := e.locks ++ [LockEv.unlock LockId.server] }

/-- The mutex of the room at address `a` becomes held. -/
def Exec.holdRoom (e : Exec) (a : Nat) : Exec :=
  { e with srv := e.srv.putRoom a { e.srv.roomAt a with Mutex := true } }

/-- The call `room.Mutex.Unlock()` for the room at address `a`. -/
def Exec.unlockRoom (e : Exec) (a : Nat) : Exec :=
  { e with srv := e.srv.putRoom a { e.srv.roomAt a with Mutex := false },
           locks := e.locks ++ [LockEv.unlock (LockId.room a)] }

/-- Sequencing: run `f` when `r` returned, otherwise stay blocked or panicked. -/
def Res.andThen {α β : Type} (r : Res α) (f : α → Exec → Res β) : Res β :=
  match r.out with
  | Outcome.returned a => f a r.ex
  | Outcome.blocked m => ⟨Outcome.blocked m, r.ex⟩
  | Outcome.panicked => ⟨Outcome.panicked, r.ex⟩

/-- A `for ... range` loop whose body is a call. -/
def forEach {β : Type} (body : β → Exec → Res Unit) : List β → Exec → Res Unit
  | [], e => ⟨Outcome.returned (), e⟩
  | x :: xs, e => (body x e).andThen (fun _ e' => forEach body xs e')

/-! ## The operations of `main.go` -/

/-- The method `CreateRoom`; it returns the address of the new room. -/
def CreateRoom (roomID : String) (e : Exec) : Res Nat :=
  let e1 := e.callLock LockId.server
  if e.srv.Mutex then ⟨Outcome.blocked LockId.server, e1⟩ else
  let e2 := e1.holdServer
  let a := e2.srv.roomCount
  let s3 := { (e2.srv.putRoom a ⟨roomID, [], false, false⟩) with roomCount := a + 1 }
  let s4 := { s3 with Rooms := mapSet s3.Rooms roomID a }
  ⟨Outcome.returned a, Exec.unlockServer { e2 with srv := s4 }⟩

/-- The tail of `JoinRoom` once `room` is the room at address `a`: lock the
room, store the player, unlock both mutexes and return nil. -/
def joinLocked (a : Nat) (playerID : String) (player : Option Nat) (e : Exec) :
    Res (Option String) :=
  let e1 := e.callLock (LockId.room a)
  if (e.srv.roomAt a).Mutex then ⟨Outcome.blocked (LockId.room a), e1⟩ else
  let e2 := e1.holdRoom a
  let room := e2.srv.roomAt a
  let e3 : Exec :=
    { e2 with srv := e2.srv.putRoom a { room with Players := mapSet room.Players playerID player } }
  ⟨Outcome.returned none, (e3.unlockRoom a).unlockServer⟩

/-- The method `JoinRoom`; `player` is the `*Player` passed in.  The result
`none` is the nil error. -/
def JoinRoom (roomID playerID : String) (player : Option Nat) (e : Exec) :
    Res (Option String) :=
  let e1 := e.callLock LockId.server
  if e.srv.Mutex then ⟨Outcome.blocked LockId.server, e1⟩ else
  let e2 := e1.holdServer
  match mapGet e2.srv.Rooms roomID with
  | some a => joinLocked a playerID player e2
  | none =>
    let a := e2.srv.roomCount
    let s := { (e2.srv.putRoom a ⟨roomID, [], false, false⟩) with roomCount := a + 1 }
    joinLocked a playerID player { e2 with srv := { s with Rooms := mapSet s.Rooms roomID a } }

/-- The loop of `BroadcastGameState` over `room.Players`: one `WriteJSON` for
every player whose `ID` differs from `state.PlayerID`.  Reading `player.ID`
through a nil `*Player` panics, and so does `WriteJSON` on a nil connection.
`werr k` says whether the `k`-th `WriteJSON` call of the execution returns an
error; the error is printed and the loop goes on. -/
def sendLoop (werr : Nat → Bool) (state : GameState) :
    List (String × Option Nat) → Exec → Res Unit
  | [], e => ⟨Outcome.returned (), e⟩
  | p :: ps, e =>
    match p.2 with
    | none => ⟨Outcome.panicked, e⟩
    | some pa =>
      if (e.srv.playerAt pa).ID ≠ state.PlayerID then
        match (e.srv.playerAt pa).Conn with
        | none => ⟨Outcome.panicked, e⟩
        | some c =>
          sendLoop werr state ps
            { e with sends := e.sends ++ [⟨pa, c, state, werr e.sends.length⟩] }
      else sendLoop werr state ps e

/-- The method `BroadcastGameState`.  The two deferred unlocks run when the loop
is done and when it panics. -/
def BroadcastGameState (werr : Nat → Bool) (roomID : String) (state : GameState)
    (e : Exec) : Res Unit :=
  let e1 := e.callLock LockId.server
  if e.srv.Mutex then ⟨Outcome.blocked LockId.server, e1⟩ else
  let e2 := e1.holdServer
  match mapGet e2.srv.Rooms roomID with
  | none => ⟨Outcome.returned (), e2.unlockServer⟩
  | some a =>
    let e3 := e2.callLock (LockId.room a)
    if (e2.srv.roomAt a).Mutex then ⟨Outcome.blocked (LockId.room a), e3⟩ else
    let e4 := e3.holdRoom a
    let r := sendLoop werr state (e4.srv.roomAt a).Players e4
    ⟨r.out, (r.ex.unlockRoom a).unlockServer⟩

/-- The `initialState` that `SetPlayerReady` builds for a player. -/
def initialState (p : Player) : GameState :=
  ⟨p.ID, zeroGrid, "I", 0⟩

/-- The assignment `room.GameStarted = true` for the room at address `a`. -/
def Exec.setStarted (e : Exec) (a : Nat) : Exec :=
  { e with srv := e.srv.putRoom a { e.srv.roomAt a with GameStarted := true } }

/-- The end of `SetPlayerReady` after its broadcast loop: `return nil`, with the
two deferred unlocks, which also run when the loop panics; nothing runs while
a call of the loop is blocked. -/
def returnNil (a : Nat) (r : Res Unit) : Res (Option String) :=
  match r.out with
  | Outcome.returned _ => ⟨Outcome.returned none, (r.ex.unlockRoom a).unlockServer⟩
  | Outcome.blocked m => ⟨Outcome.blocked m, r.ex⟩
  | Outcome.panicked => ⟨Outcome.panicked, (r.ex.unlockRoom a).unlockServer⟩

/-- The body of the broadcast loop of `SetPlayerReady` for the entry `p`: build
the initial state from `p.ID` (a panic when `p` is nil) and broadcast it. -/
def startBody (werr : Nat → Bool) (roomID : String) (p : String × Option Nat)
    (e : Exec) : Res Unit :=
  match p.2 with
  | none => ⟨Outcome.panicked, e⟩
  | some pa => BroadcastGameState werr roomID (initialState (e.srv.playerAt pa)) e

/-- The block of `SetPlayerReady` under `if allReady && !room.GameStarted`, for
the room at address `a`, up to the return: set `GameStarted`, broadcast the
initial state of every player of the room, return nil. -/
def startGame (werr : Nat → Bool) (roomID : String) (a : Nat) (e : Exec) :
    Res (Option String) :=
  returnNil a (forEach (startBody werr roomID)
    ((e.setStarted a).srv.roomAt a).Players (e.setStarted a))

/-- The scan of `SetPlayerReady` over `room.Players` that computes `allReady`:
`some false` at the first player that is not ready (`break`), `some true`
when there is none, and `none` when `p.IsReady` is read through a nil `*Player`
(a panic). -/
def scanReady (s : Server) : List (String × Option Nat) → Option Bool
  | [] => some true
  | p :: ps =>
    match p.2 with
    | none => none
    | some pa => if (s.playerAt pa).IsReady then scanReady s ps else some false

/-- The method `SetPlayerReady`.  The result `none` is the nil error.  The
assignment `player.IsReady = true` through a nil `*Player` panics; the two
deferred unlocks run on every return and on a panic. -/
def SetPlayerReady (werr : Nat → Bool) (roomID playerID : String) (e : Exec) :
    Res (Option String) :=
  let e1 := e.callLock LockId.server
  if e.srv.Mutex then ⟨Outcome.blocked LockId.server, e1⟩ else
  let e2 := e1.holdServer
  match mapGet e2.srv.Rooms roomID with
  | none => ⟨Outcome.returned (some "room not found"), e2.unlockServer⟩
  | some a =>
    let e3 := e2.callLock (LockId.room a)
    if (e2.srv.roomAt a).Mutex then ⟨Outcome.blocked (LockId.room a), e3⟩ else
    let e4 := e3.holdRoom a
    match mapGet (e4.srv.roomAt a).Players playerID with
    | none =>
      ⟨Outcome.returned (some "player not found in room"), (e4.unlockRoom a).unlockServer⟩
    | some none => ⟨Outcome.panicked, (e4.unlockRoom a).unlockServer⟩
    | some (some pa) =>
      let e5 : Exec :=
        { e4 with srv := e4.srv.putPlayer pa { e4.srv.playerAt pa with IsReady := true } }
      match scanReady e5.srv (e5.srv.roomAt a).Players with
      | none => ⟨Outcome.panicked, (e5.unlockRoom a).unlockServer⟩
      | some allReady =>
        if allReady && !(e5.srv.roomAt a).GameStarted then startGame werr roomID a e5
        else ⟨Outcome.returned none, (e5.unlockRoom a).unlockServer⟩

/-- The state one tick of `PeriodicStateUpdate` builds for a player. -/
def syncState (p : Player) : GameState :=
  ⟨p.ID, p.Field, "exampleBlock", p.Score⟩

/-- The body of the inner loop of `PeriodicStateUpdate` for the entry `p` of the
room at address `a`: build the state from the player (a panic when `p` is nil)
and broadcast it. -/
def tickBody (werr : Nat → Bool) (a : Nat) (p : String × Option Nat) (e : Exec) :
    Res Unit :=
  match p.2 with
  | none => ⟨Outcome.panicked, e⟩
  | some pa =>
    BroadcastGameState werr (e.srv.roomAt a).ID (syncState (e.srv.playerAt pa)) e

/-- The body of the loop of `PeriodicStateUpdate` over `s.Rooms`, for the room
at address `a`.  The function defers nothing: a panic leaves its mutexes held. -/
def tickRoom (werr : Nat → Bool) (a : Nat) (e : Exec) : Res Unit :=
  let e1 := e.callLock (LockId.room a)
  if (e.srv.roomAt a).Mutex then ⟨Outcome.blocked (LockId.room a), e1⟩ else
  let e2 := e1.holdRoom a
  let r : Res Unit :=
    if (e2.srv.roomAt a).GameStarted then
      forEach (tickBody werr a) (e2.srv.roomAt a).Players e2
    else ⟨Outcome.returned (), e2⟩
  r.andThen (fun _ ex => ⟨Outcome.returned (), ex.unlockRoom a⟩)

/-- One iteration of the loop of `PeriodicStateUpdate`, after the sleep. -/
def PeriodicTick (werr : Nat → Bool) (e : Exec) : Res Unit :=
  let e1 := e.callLock LockId.server
  if e.srv.Mutex then ⟨Outcome.blocked LockId.server, e1⟩ else
  let e2 := e1.holdServer
  (forEach (fun (p : String × Nat) ex => tickRoom werr p.2 ex) e2.srv.Rooms e2).andThen
    (fun _ ex => ⟨Outcome.returned (), ex.unlockServer⟩)

/-! ## The connection session -/

/-- A value of type `interface{}` as a message holds it: what `ReadJSON` decodes
JSON into (nil, `bool`, `float64`, `string`, `[]interface{}`,
`map[string]interface{}`), and a value of type `[20][10]int`.  A `float64` is
given by its integer value: only whole numbers are represented. -/
inductive Iface
  | null
  | bool (b : Bool)
  | float64 (x : Int)
  | string (s : String)
  | slice (xs : List Iface)
  | map (kvs : List (String × Iface))
  | grid (f : Grid)

/-- A message `map[string]interface{}`. -/
abbrev Msg := List (String × Iface)

/-- Whether a value can come out of `ReadJSON` as the value of a key: its
dynamic type is one of the six that `encoding/json` produces. -/
def Iface.decoded : Iface → Bool
  | Iface.grid _ => false
  | _ => true

/-- Whether a message can come out of `ReadJSON`. -/
def Msg.decoded (msg : Msg) : Bool := msg.all (fun kv => kv.2.decoded)

/-- The body of the message loop of `handleConnection` for one message that was
read: the `switch` on `msg["type"]`.  A type assertion `v.(T)` on a value
whose dynamic type is not `T` (a missing key gives nil) panics; the fields of
the composite literal are evaluated in order.  `pa` is the address of the
session's `player`. -/
def handleMessage (werr : Nat → Bool) (roomID : String) (pa : Nat) (msg : Msg)
    (e : Exec) : Res Unit :=
  match mapGet msg "type" with
  | some (Iface.string t) =>
    if t = "update" then
      match mapGet msg "field" with
      | some (Iface.grid f) =>
        match mapGet msg "currentBlock" with
        | some (Iface.string b) =>
          match mapGet msg "score" with
          | some (Iface.float64 x) =>
            BroadcastGameState werr roomID ⟨(e.srv.playerAt pa).ID, f, b, x⟩ e
          | _ => ⟨Outcome.panicked, e⟩
        | _ => ⟨Outcome.panicked, e⟩
      | _ => ⟨Outcome.panicked, e⟩
    else ⟨Outcome.returned (), e⟩
  | _ => ⟨Outcome.returned (), e⟩

/-- The message loop of `handleConnection`: the messages `ReadJSON` delivers,
in order; after the last one `ReadJSON` returns an error (the connection is
closed) and the loop is left by `break`. -/
def messageLoop (werr : Nat → Bool) (roomID : String) (pa : Nat) :
    List Msg → Exec → Res Unit
  | [], e => ⟨Outcome.returned (), e⟩
  | m :: ms, e =>
    (handleMessage werr roomID pa m e).andThen (fun _ e' => messageLoop werr roomID pa ms e')

/-- The deferred function of `handleConnection` that removes the player. -/
def teardown (roomID playerID : String) (e : Exec) : Res Unit :=
  match mapGet e.srv.Rooms roomID with
  | none => ⟨Outcome.returned (), e⟩
  | some a =>
    let e1 := e.callLock (LockId.room a)
    if (e.srv.roomAt a).Mutex then ⟨Outcome.blocked (LockId.room a), e1⟩ else
    let e2 := e1.holdRoom a
    let room := e2.srv.roomAt a
    let e3 : Exec :=
      { e2 with srv := e2.srv.putRoom a { room with Players := mapDel room.Players playerID } }
    ⟨Outcome.returned (), e3.unlockRoom a⟩

/-- The allocation `&Player{ID: playerID, Name: playerName, Conn: conn}` of
`handleConnection`; it returns the address of the new player. -/
def newPlayer (playerID playerName : String) (conn : Nat) (e : Exec) : Nat × Exec :=
  let pa := e.srv.playerCount
  (pa, { e with srv :=
    { (e.srv.putPlayer pa ⟨playerID, playerName, some conn, false, 0, zeroGrid⟩) with
      playerCount := pa + 1 } })

/-- The registration part of `handleConnection`, after the upgrade: allocate
the player and join the room. -/
def sessionJoin (playerID playerName roomID : String) (conn : Nat) (e : Exec) :
    Res (Option String) :=
  JoinRoom roomID playerID (some (newPlayer playerID playerName conn e).1)
    (newPlayer playerID playerName conn e).2

/-- What follows the registration in `handleConnection`: the message loop, and
the deferred removal of the player, which runs when the loop is left and when a
message panics (not while a call is blocked). -/
def sessionRun (werr : Nat → Bool) (playerID roomID : String) (pa : Nat)
    (msgs : List Msg) (e : Exec) : Res Unit :=
  let r := messageLoop werr roomID pa msgs e
  match r.out with
  | Outcome.returned _ => teardown roomID playerID r.ex
  | Outcome.blocked m => ⟨Outcome.blocked m, r.ex⟩
  | Outcome.panicked =>
    match (teardown roomID playerID r.ex).out with
    | Outcome.blocked m => ⟨Outcome.blocked m, (teardown roomID playerID r.ex).ex⟩
    | _ => ⟨Outcome.panicked, (teardown roomID playerID r.ex).ex⟩

/-- The handler `handleConnection` once the upgrade has succeeded, for a
connection that delivers the messages `msgs` and is then closed. -/
def handleConnection (werr : Nat → Bool) (playerID playerName roomID : String)
    (conn : Nat) (msgs : List Msg) (e : Exec) : Res Unit :=
  let r := sessionJoin playerID playerName roomID conn e
  match r.out with
  | Outcome.returned none =>
    sessionRun werr playerID roomID (newPlayer playerID playerName conn e).1 msgs r.ex
  | Outcome.returned (some _) => ⟨Outcome.returned (), r.ex⟩
  | Outcome.blocked m => ⟨Outcome.blocked m, r.ex⟩
  | Outcome.panicked => ⟨Outcome.panicked, r.ex⟩

/-! ## Sequences of registry operations -/

/-- A registry operation. -/
inductive Op
  | createRoom (roomID : String)
  | joinRoom (roomID playerID : String) (player : Option Nat)
  | setPlayerReady (roomID playerID : String)
  | broadcast (roomID : String) (state : GameState)
  | teardown (roomID playerID : String)
  | tick

/-- The execution state an operation leaves, whether it returned or blocked. -/
def Op.exec (werr : Nat → Bool) : Op → Exec → Exec
  | Op.createRoom r, e => (CreateRoom r e).ex
  | Op.joinRoom r p a, e => (JoinRoom r p a e).ex
  | Op.setPlayerReady r p, e => (SetPlayerReady werr r p e).ex
  | Op.broadcast r st, e => (BroadcastGameState werr r st e).ex
  | Op.teardown r p, e => (TinyTetris.teardown r p e).ex
  | Op.tick, e => (PeriodicTick werr e).ex

/-- The server an operation leaves. -/
def step (werr : Nat → Bool) (op : Op) (s : Server) : Server :=
  (op.exec werr (Exec.start s)).srv

/-- The servers passed through by a sequence of operations, the first one
included. -/
def run (werr : Nat → Bool) : List Op → Server → List Server
  | [], s => [s]
  | op :: ops, s => s :: run werr ops (step werr op s)

/-! ## Statements about executions -/

/-- The addresses of the players in a player map, in the order of the map. -/
def members (ps : List (String × Option Nat)) : List Nat :=
  ps.filterMap (fun p => p.2)

/-- The players of a room that `BroadcastGameState` writes `state` to: those
whose `ID` differs from `state.PlayerID`. -/
def recipients (s : Server) (state : GameState) (ps : List (String × Option Nat)) :
    List Nat :=
  (members ps).filter (fun pa => decide ((s.playerAt pa).ID ≠ state.PlayerID))

/-- The player map of the room registered under `roomID` (empty when there is
no such room). -/
def playersOf (s : Server) (roomID : String) : List (String × Option Nat) :=
  match mapGet s.Rooms roomID with
  | some a => (s.roomAt a).Players
  | none => []

/-- The server after the calls `JoinRoom(roomID, j.1, j.2)` for the pairs `j`
of a list, made one after the other. -/
def joinAll (roomID : String) : List (String × Option Nat) → Server → Server
  | [], s => s
  | j :: js, s => joinAll roomID js (JoinRoom roomID j.1 j.2 (Exec.start s)).ex.srv

/-- How each of these calls ends. -/
def joinResults (roomID : String) :
    List (String × Option Nat) → Server → List (Outcome (Option String))
  | [], _ => []
  | j :: js, s =>
    (JoinRoom roomID j.1 j.2 (Exec.start s)).out ::
      joinResults roomID js (JoinRoom roomID j.1 j.2 (Exec.start s)).ex.srv

/-- Whether the room object at address `a` has been allocated and has
`GameStarted` set. -/
def startedAt (s : Server) (a : Nat) : Bool :=
  decide (a < s.roomCount) && (s.roomAt a).GameStarted

/-- The number of places of a list of flags where `false` is followed by `true`. -/
def rises : List Bool → Nat
  | [] => 0
  | [_] => 0
  | x :: y :: rest => (if x = false ∧ y = true then 1 else 0) + rises (y :: rest)

/-- The number of places of a list of flags where `true` is followed by `false`. -/
def falls : List Bool → Nat
  | [] => 0
  | [_] => 0
  | x :: y :: rest => (if x = true ∧ y = false then 1 else 0) + falls (y :: rest)

/-- Two servers that differ at most in which mutexes are held. -/
def SameGame (s s' : Server) : Prop :=
  s'.Rooms = s.Rooms ∧ s'.roomCount = s.roomCount ∧ s'.playerCount = s.playerCount ∧
  s'.playerAt = s.playerAt ∧
  ∀ a, (s'.roomAt a).GameStarted = (s.roomAt a).GameStarted ∧
    (s'.roomAt a).Players = (s.roomAt a).Players ∧ (s'.roomAt a).ID = (s.roomAt a).ID

/-- The locking discipline, checked on the `Lock` and `Unlock` calls of one
operation in order, `held` being the mutexes the operation holds: `Lock` is
called, on the server mutex or on a room mutex, only while no room mutex is
held. -/
def lockOrder : List LockId → List LockEv → Bool
  | _, [] => true
  | held, LockEv.lock m :: evs =>
    held.all (fun h => decide (h = LockId.server)) && lockOrder (m :: held) evs
  | held, LockEv.unlock m :: evs => lockOrder (held.erase m) evs

/-! ## Scenarios -/

/-- No `WriteJSON` call fails. -/
def noErr : Nat → Bool := fun _ => false

/-- Every `WriteJSON` call fails. -/
def allErr : Nat → Bool := fun _ => true

/-- The server after the session of A (connection 1) has joined room "r1". -/
def roomA : Server :=
  (sessionJoin "A" "Alice" "r1" 1 (Exec.start NewServer)).ex.srv

/-- The server after the sessions of A and of B (connection 2) have joined room "r1". -/
def roomAB : Server :=
  (sessionJoin "B" "Bob" "r1" 2 (Exec.start roomA)).ex.srv

/-- The server after the sessions of A, B and C (connection 3) have joined room "r1". -/
def roomABC : Server :=
  (sessionJoin "C" "Carol" "r1" 3 (Exec.start roomAB)).ex.srv

/-- The server `roomABC` after `SetPlayerReady("r1", "A")` and then
`SetPlayerReady("r1", "B")`. -/
def roomABCready : Server :=
  (SetPlayerReady noErr "r1" "B"
    (Exec.start (SetPlayerReady noErr "r1" "A" (Exec.start roomABC)).ex.srv)).ex.srv

/-- The server after a second session (connection 2) has joined room "r1" under
the player ID "A" that the first session (connection 1) joined with. -/
def roomAA : Server :=
  (sessionJoin "A" "Alice" "r1" 2 (Exec.start roomA)).ex.srv

/-- The all-zero 20x10 grid as `ReadJSON` decodes it. -/
def jsonZeroField : Iface :=
  Iface.slice (List.replicate 20 (Iface.slice (List.replicate 10 (Iface.float64 0))))

/-- The message `{"type": "update", "field": <all zero>, "currentBlock": "I",
"score": 0}` as `ReadJSON` decodes it. -/
def updateMsg : Msg :=
  [("type", Iface.string "update"), ("field", jsonZeroField),
   ("currentBlock", Iface.string "I"), ("score", Iface.float64 0)]

/-- The message `{"type": "update", "field": "oops", "currentBlock": "I",
"score": 0}` as `ReadJSON` decodes it: the field is not a grid. -/
def malformedMsg : Msg :=
  [("type", Iface.string "update"), ("field", Iface.string "oops"),
   ("currentBlock", Iface.string "I"), ("score", Iface.float64 0)]

/-- The message `{"type": "update", "field": <all zero>, "currentBlock": "T",
"score": 7}` as `ReadJSON` decodes it. -/
def scoreMsg : Msg :=
  [("type", Iface.string "update"), ("field", jsonZeroField),
   ("currentBlock", Iface.string "T"), ("score", Iface.float64 7)]

/-- A message map built in memory whose `field` holds a value of type
`[20][10]int` (all ones), with current block "T" and score 7. -/
def gridMsg : Msg :=
  [("type", Iface.string "update"),
   ("field", Iface.grid (List.replicate 20 (List.replicate 10 1))),
   ("currentBlock", Iface.string "T"), ("score", Iface.float64 7)]

/-- A server holding room "r1" with the single player A in which `GameStarted`
is set and no mutex is held (`SetPlayerReady` sets the flag only in the run
that blocks, so no run of the operations leads to this server). -/
def startedFree : Server :=
  { roomA with roomAt := fun _ => ⟨"r1", [("A", some 0)], false, true⟩ }

/-- A new server after `JoinRoom("r1", "A", &Player{})`: the player is the zero
value, without a connection. -/
def roomNoConn : Server :=
  (JoinRoom "r1" "A" (some 0) (Exec.start NewServer)).ex.srv

/-- A new server after `JoinRoom("r1", "A", nil)`. -/
def roomNilPlayer : Server :=
  (JoinRoom "r1" "A" none (Exec.start NewServer)).ex.srv

/-! # Theorems -/

/-! ## BroadcastGameState -/

theorem sendLoop_srv (werr : Nat → Bool) (st : GameState) (ps : List (String × Option Nat)) :
    ∀ e : Exec, (sendLoop werr st ps e).ex.srv = e.srv := by
  induction ps with
  | nil => intro e; rfl
  | cons p ps ih =>
    intro e
    simp only [sendLoop]
    split
    · rfl
    · split
      · split
        · rfl
        · rw [ih]
      · rw [ih]

theorem sendLoop_locks (werr : Nat → Bool) (st : GameState) (ps : List (String × Option Nat)) :
    ∀ e : Exec, (sendLoop werr st ps e).ex.locks = e.locks := by
  induction ps with
  | nil => intro e; rfl
  | cons p ps ih =>
    intro e
    simp only [sendLoop]
    split
    · rfl
    · split
      · split
        · rfl
        · rw [ih]
      · rw [ih]

theorem sendLoop_not_blocked (werr : Nat → Bool) (st : GameState)
    (ps : List (String × Option Nat)) :
    ∀ (e : Exec) (m : LockId), (sendLoop werr st ps e).out ≠ Outcome.blocked m := by
  induction ps with
  | nil => intro e m h; cases h
  | cons p ps ih =>
    intro e m
    simp only [sendLoop]
    split
    · intro h; cases h
    · split
      · split
        · intro h; cases h
        · exact ih _ m
      · exact ih _ m

/-- The writes of the loop when every entry is a player and every player written
to has a connection: the loop returns, and it writes to the recipients in the
order of the map. -/
theorem sendLoop_dests (werr : Nat → Bool) (st : GameState) (ps : List (String × Option Nat)) :
    ∀ e : Exec,
      (∀ p ∈ ps, ∃ pa, p.2 = some pa ∧
        ((e.srv.playerAt pa).ID ≠ st.PlayerID → (e.srv.playerAt pa).Conn ≠ none)) →
      (sendLoop werr st ps e).out = Outcome.returned () ∧
      (sendLoop werr st ps e).ex.sends.map Send.dest =
        e.sends.map Send.dest ++ recipients e.srv st ps := by
  induction ps with
  | nil => intro e _; simp [sendLoop, recipients, members]
  | cons p ps ih =>
    intro e h
    obtain ⟨pa, hpa, hconn⟩ := h p (List.mem_cons_self _ _)
    have hrest : ∀ q ∈ ps, ∃ qa, q.2 = some qa ∧
        ((e.srv.playerAt qa).ID ≠ st.PlayerID → (e.srv.playerAt qa).Conn ≠ none) :=
      fun q hq => h q (List.mem_cons_of_mem _ hq)
    simp only [sendLoop, hpa]
    by_cases hid : (e.srv.playerAt pa).ID ≠ st.PlayerID
    · rw [if_pos hid]
      cases hc : (e.srv.playerAt pa).Conn with
      | none => exact absurd hc (hconn hid)
      | some c =>
        simp only
        obtain ⟨i1, i2⟩ := ih { e with sends := e.sends ++ [⟨pa, c, st, werr e.sends.length⟩] } hrest
        refine ⟨i1, ?_⟩
        rw [i2]
        simp [recipients, members, List.filterMap_cons, hpa, List.filter_cons, hid]
    · rw [if_neg hid]
      obtain ⟨i1, i2⟩ := ih e hrest
      refine ⟨i1, ?_⟩
      rw [i2]
      simp [recipients, members, List.filterMap_cons, hpa, List.filter_cons, hid]

/-- Every write of the loop carries the state and goes, on the player's own
connection, to a player whose `ID` differs from the `PlayerID` of the state. -/
theorem sendLoop_others (werr : Nat → Bool) (st : GameState) (ps : List (String × Option Nat)) :
    ∀ e : Exec,
      (∀ x ∈ e.sends, x.state = st ∧ (e.srv.playerAt x.dest).Conn = some x.conn ∧
        (e.srv.playerAt x.dest).ID ≠ st.PlayerID) →
      ∀ x ∈ (sendLoop werr st ps e).ex.sends, x.state = st ∧
        (e.srv.playerAt x.dest).Conn = some x.conn ∧
        (e.srv.playerAt x.dest).ID ≠ st.PlayerID := by
  induction ps with
  | nil => intro e h; exact h
  | cons p ps ih =>
    intro e h
    simp only [sendLoop]
    split
    · exact h
    · rename_i pa _
      split
      · rename_i hid
        split
        · exact h
        · rename_i c hc
          apply ih { e with sends := e.sends ++ [⟨pa, c, st, werr e.sends.length⟩] }
          intro x hx
          simp only [List.mem_append, List.mem_singleton] at hx
          rcases hx with hx | hx
          · exact h x hx
          · subst hx
            exact ⟨rfl, hc, hid⟩
      · exact ih e h

theorem sendLoop_failed (werr : Nat → Bool) (st : GameState) (ps : List (String × Option Nat)) :
    ∀ e : Exec, (∀ k x, e.sends[k]? = some x → x.failed = werr k) →
      ∀ k x, (sendLoop werr st ps e).ex.sends[k]? = some x → x.failed = werr k := by
  induction ps with
  | nil => intro e h; exact h
  | cons p ps ih =>
    intro e h
    simp only [sendLoop]
    split
    · exact h
    · split
      · split
        · exact h
        · apply ih
          intro k x hk
          simp only at hk
          by_cases hlt : k < e.sends.length
          · rw [List.getElem?_append_left hlt] at hk
            exact h k x hk
          · have hge : e.sends.length ≤ k := Nat.le_of_not_lt hlt
            rw [List.getElem?_append_right hge] at hk
            rcases Nat.eq_zero_or_pos (k - e.sends.length) with h0 | hpos
            · rw [h0] at hk
              simp at hk
              have : k = e.sends.length := by omega
              subst hk
              simp [this]
            · obtain ⟨n, hn⟩ := Nat.exists_eq_succ_of_ne_zero (Nat.pos_iff_ne_zero.mp hpos)
              rw [hn] at hk
              simp at hk
      · exact ih e h

/-- The writes of `BroadcastGameState` for a room that is found, when every
entry of the room is a player and every player written to has a connection. -/
theorem BroadcastGameState_dests (werr : Nat → Bool) (s : Server) (roomID : String)
    (state : GameState) (a : Nat) (hs : s.Mutex = false)
    (hm : mapGet s.Rooms roomID = some a) (hra : (s.roomAt a).Mutex = false)
    (hp : ∀ p ∈ (s.roomAt a).Players, ∃ pa, p.2 = some pa ∧
      ((s.playerAt pa).ID ≠ state.PlayerID → (s.playerAt pa).Conn ≠ none)) :
    (BroadcastGameState werr roomID state (Exec.start s)).out = Outcome.returned () ∧
    (BroadcastGameState werr roomID state (Exec.start s)).ex.sends.map Send.dest =
      recipients s state (s.roomAt a).Players := by
  have h := sendLoop_dests werr state (s.roomAt a).Players
    (Exec.holdRoom (Exec.callLock (Exec.holdServer (Exec.callLock (Exec.start s) LockId.server))
      (LockId.room a)) a) hp
  simp only [BroadcastGameState, Exec.start, Exec.callLock, Exec.holdServer, Exec.unlockServer,
    Exec.holdRoom, Exec.unlockRoom, Server.putRoom, hs, hm, hra, if_true, Bool.false_eq_true,
    if_false] at h ⊢
  simpa using h

/-- No `WriteJSON` call of `BroadcastGameState` is made for a player whose `ID`
is the `PlayerID` of the state; every call writes the state, on the connection
of the player it is made for. -/
theorem BroadcastGameState_others (werr : Nat → Bool) (s : Server) (roomID : String)
    (state : GameState) (hs : s.Mutex = false)
    (hr : ∀ a, mapGet s.Rooms roomID = some a → (s.roomAt a).Mutex = false) :
    ∀ x ∈ (BroadcastGameState werr roomID state (Exec.start s)).ex.sends,
      x.state = state ∧ (s.playerAt x.dest).Conn = some x.conn ∧
      (s.playerAt x.dest).ID ≠ state.PlayerID := by
  cases hm : mapGet s.Rooms roomID with
  | none =>
    simp [BroadcastGameState, Exec.start, Exec.callLock, Exec.holdServer, Exec.unlockServer, hs, hm]
  | some a =>
    have hra := hr a hm
    have h := sendLoop_others werr state (s.roomAt a).Players
      (Exec.holdRoom (Exec.callLock (Exec.holdServer (Exec.callLock (Exec.start s) LockId.server))
        (LockId.room a)) a) (by intro x hx; simp [Exec.start, Exec.callLock, Exec.holdServer,
          Exec.holdRoom] at hx)
    simp only [BroadcastGameState, Exec.start, Exec.callLock, Exec.holdServer, Exec.unlockServer,
      Exec.holdRoom, Exec.unlockRoom, Server.putRoom, hs, hm, hra, if_true, Bool.false_eq_true,
      if_false] at h ⊢
    simpa using h

/-- C1: from a server on which the server mutex and the mutex of the room are
free, and in whose room every entry is a player and every player other than
the one the state names has a connection, `BroadcastGameState(roomID, state)`
returns; when `roomID` is a key of `s.Rooms` its `WriteJSON` calls are, entry
by entry of the room's player map, one call with `state`, on the player's own
connection, for every player whose `ID` differs from `state.PlayerID`, and
none for a player whose `ID` equals it, whatever calls fail (the `k`-th call
fails exactly when `werr k` says so); when `roomID` is not a key no call is
made. -/
theorem BroadcastGameState_sends (werr : Nat → Bool) (s : Server) (roomID : String)
    (state : GameState) (hs : s.Mutex = false)
    (hr : ∀ a, mapGet s.Rooms roomID = some a → (s.roomAt a).Mutex = false)
    (hp : ∀ a, mapGet s.Rooms roomID = some a → ∀ p ∈ (s.roomAt a).Players,
      ∃ pa, p.2 = some pa ∧
        ((s.playerAt pa).ID ≠ state.PlayerID → (s.playerAt pa).Conn ≠ none)) :
    (BroadcastGameState werr roomID state (Exec.start s)).out = Outcome.returned () ∧
    (∀ a, mapGet s.Rooms roomID = some a →
      (BroadcastGameState werr roomID state (Exec.start s)).ex.sends.map Send.dest =
        recipients s state (s.roomAt a).Players) ∧
    (∀ x ∈ (BroadcastGameState werr roomID state (Exec.start s)).ex.sends,
      x.state = state ∧ (s.playerAt x.dest).Conn = some x.conn ∧
      (s.playerAt x.dest).ID ≠ state.PlayerID) ∧
    (∀ k x, (BroadcastGameState werr roomID state (Exec.start s)).ex.sends[k]? = some x →
      x.failed = werr k) ∧
    (mapGet s.Rooms roomID = none →
      (BroadcastGameState werr roomID state (Exec.start s)).ex.sends = []) := by
  refine ⟨?_, ?_, BroadcastGameState_others werr s roomID state hs hr, ?_, ?_⟩
  · cases hm : mapGet s.Rooms roomID with
    | none => simp [BroadcastGameState, Exec.start, Exec.callLock, Exec.holdServer, hs, hm]
    | some a => exact (BroadcastGameState_dests werr s roomID state a hs hm (hr a hm) (hp a hm)).1
  · intro a hm
    exact (BroadcastGameState_dests werr s roomID state a hs hm (hr a hm) (hp a hm)).2
  · intro k x hk
    cases hm : mapGet s.Rooms roomID with
    | none =>
      simp [BroadcastGameState, Exec.start, Exec.callLock, Exec.holdServer, Exec.unlockServer,
        hs, hm] at hk
    | some a =>
      simp [BroadcastGameState, Exec.start, Exec.callLock, Exec.holdServer, Exec.unlockServer,
        Exec.holdRoom, Exec.unlockRoom, Server.putRoom, hs, hm, hr a hm] at hk
      refine sendLoop_failed werr state _ _ ?_ k x hk
      intro k x h
      simp at h
  · intro hm
    simp [BroadcastGameState, Exec.start, Exec.callLock, Exec.holdServer, Exec.unlockServer,
      hs, hm]

/-! ## JoinRoom -/

theorem mapGet_mapSet_self {α : Type} (m : List (String × α)) (k : String) (v : α) :
    mapGet (mapSet m k v) k = some v := by
  induction m with
  | nil => simp [mapSet, mapGet]
  | cons e m ih =>
    obtain ⟨k', v'⟩ := e
    by_cases h : k' = k
    · simp [mapSet, mapGet, h]
    · simp [mapSet, mapGet, h, ih]

theorem mapGet_mapSet_other {α : Type} (m : List (String × α)) (k k2 : String) (v : α)
    (hne : k2 ≠ k) : mapGet (mapSet m k v) k2 = mapGet m k2 := by
  induction m with
  | nil => simp [mapSet, mapGet, Ne.symm hne]
  | cons e m ih =>
    obtain ⟨k', v'⟩ := e
    by_cases h : k' = k
    · subst h
      simp [mapSet, mapGet, Ne.symm hne]
    · by_cases h2 : k' = k2
      · subst h2
        simp [mapSet, mapGet, h]
      · simp [mapSet, mapGet, h, h2, ih]

theorem mapGet_eq_none_iff {α : Type} (m : List (String × α)) (k : String) :
    mapGet m k = none ↔ k ∉ m.map Prod.fst := by
  induction m with
  | nil => simp [mapGet]
  | cons e m ih =>
    obtain ⟨k', v'⟩ := e
    by_cases h : k' = k
    · simp [mapGet, h]
    · simp [mapGet, h, ih, Ne.symm h]

theorem mapSet_length_present {α : Type} (m : List (String × α)) (k : String) (v : α)
    (h : k ∈ m.map Prod.fst) : (mapSet m k v).length = m.length := by
  induction m with
  | nil => simp at h
  | cons e m ih =>
    obtain ⟨k', v'⟩ := e
    by_cases hk : k' = k
    · simp [mapSet, hk]
    · have hm : k ∈ m.map Prod.fst := by
        simp only [List.map_cons, List.mem_cons] at h
        rcases h with h | h
        · exact absurd h.symm hk
        · exact h
      simp [mapSet, hk, ih hm]

theorem mapSet_absent {α : Type} (m : List (String × α)) (k : String) (v : α)
    (h : k ∉ m.map Prod.fst) : mapSet m k v = m ++ [(k, v)] := by
  induction m with
  | nil => simp [mapSet]
  | cons e m ih =>
    obtain ⟨k', v'⟩ := e
    simp only [List.map_cons, List.mem_cons, not_or] at h
    have hk : ¬ k' = k := fun hh => h.1 hh.symm
    simp [mapSet, hk, ih h.2]

theorem mapGet_of_mem_nodup {α : Type} (m : List (String × α))
    (hd : (m.map Prod.fst).Nodup) (j : String × α) (hj : j ∈ m) :
    mapGet m j.1 = some j.2 := by
  induction m with
  | nil => simp at hj
  | cons e m ih =>
    obtain ⟨k', v'⟩ := e
    simp only [List.map_cons, List.nodup_cons] at hd
    rcases List.mem_cons.mp hj with h | h
    · subst h
      simp [mapGet]
    · have hne : ¬ k' = j.1 := by
        intro hh
        apply hd.1
        rw [hh]
        exact List.mem_map_of_mem Prod.fst h
      simp [mapGet, hne, ih hd.2 h]

/-- One `JoinRoom` call on a server whose mutex and whose room mutex are free. -/
theorem JoinRoom_step (s : Server) (roomID playerID : String) (player : Option Nat)
    (hs : s.Mutex = false)
    (hf : ∀ a, mapGet s.Rooms roomID = some a → (s.roomAt a).Mutex = false) :
    (JoinRoom roomID playerID player (Exec.start s)).out = Outcome.returned none ∧
    (JoinRoom roomID playerID player (Exec.start s)).ex.srv.Mutex = false ∧
    (∃ a, mapGet (JoinRoom roomID playerID player (Exec.start s)).ex.srv.Rooms roomID = some a ∧
      ((JoinRoom roomID playerID player (Exec.start s)).ex.srv.roomAt a).Mutex = false) ∧
    playersOf (JoinRoom roomID playerID player (Exec.start s)).ex.srv roomID =
      mapSet (playersOf s roomID) playerID player := by
  cases hm : mapGet s.Rooms roomID with
  | none =>
    simp [JoinRoom, joinLocked, Exec.start, Exec.callLock, Exec.holdServer, Exec.unlockServer,
      Exec.holdRoom, Exec.unlockRoom, Server.putRoom, hs, hm, playersOf, mapGet_mapSet_self]
  | some a =>
    have ha := hf a hm
    simp [JoinRoom, joinLocked, Exec.start, Exec.callLock, Exec.holdServer, Exec.unlockServer,
      Exec.holdRoom, Exec.unlockRoom, Server.putRoom, hs, hm, ha, playersOf]

theorem foldl_mapSet_fresh (joins : List (String × Option Nat)) :
    ∀ l0 : List (String × Option Nat), ((l0 ++ joins).map Prod.fst).Nodup →
      joins.foldl (fun l j => mapSet l j.1 j.2) l0 = l0 ++ joins := by
  induction joins with
  | nil => intro l0 _; simp
  | cons j js ih =>
    intro l0 hd
    have hj : j.1 ∉ l0.map Prod.fst := by
      intro hmem
      rw [List.map_append, List.nodup_append] at hd
      exact hd.2.2 hmem (by simp)
    simp only [List.foldl_cons]
    rw [mapSet_absent l0 j.1 j.2 hj, ih]
    · simp
    · simpa using hd

theorem joinAll_spec (roomID : String) (joins : List (String × Option Nat)) :
    ∀ s : Server, s.Mutex = false →
      (∀ a, mapGet s.Rooms roomID = some a → (s.roomAt a).Mutex = false) →
      (∀ o ∈ joinResults roomID joins s, o = Outcome.returned none) ∧
      (joinAll roomID joins s).Mutex = false ∧
      (∀ a, mapGet (joinAll roomID joins s).Rooms roomID = some a →
        ((joinAll roomID joins s).roomAt a).Mutex = false) ∧
      (joins ≠ [] → mapGet (joinAll roomID joins s).Rooms roomID ≠ none) ∧
      playersOf (joinAll roomID joins s) roomID =
        joins.foldl (fun l j => mapSet l j.1 j.2) (playersOf s roomID) := by
  induction joins with
  | nil =>
    intro s hs hf
    simp [joinResults, joinAll, hs]
    exact hf
  | cons j js ih =>
    intro s hs hf
    obtain ⟨h1, h2, ⟨a, h3, h4⟩, h5⟩ := JoinRoom_step s roomID j.1 j.2 hs hf
    have hf' : ∀ b, mapGet (JoinRoom roomID j.1 j.2 (Exec.start s)).ex.srv.Rooms roomID = some b →
        ((JoinRoom roomID j.1 j.2 (Exec.start s)).ex.srv.roomAt b).Mutex = false := by
      intro b hb
      rw [h3] at hb
      cases hb
      exact h4
    obtain ⟨i1, i2, i3, i4, i5⟩ := ih _ h2 hf'
    refine ⟨?_, i2, i3, ?_, ?_⟩
    · intro o ho
      simp only [joinResults, List.mem_cons] at ho
      rcases ho with ho | ho
      · rw [ho, h1]
      · exact i1 o ho
    · intro _
      cases js with
      | nil => simp [joinAll, h3]
      | cons j2 js2 => exact i4 (by simp)
    · simp only [joinAll, List.foldl_cons]
      rw [i5, h5]


/-- C7: on a server whose mutex is free and where the room is absent, or is
empty with a free mutex, every one of a sequence of `JoinRoom` calls into the
room with pairwise distinct player IDs returns nil, the room exists after the
first call, and after the `N` calls its player map has exactly `N` entries,
each ID bound to the player supplied with it; a further `JoinRoom` returns
nil, binds its ID to the player supplied and, when the ID is already present,
leaves the number of entries at `N`. -/
theorem JoinRoom_members (s : Server) (roomID : String) (joins : List (String × Option Nat))
    (again : String) (player : Option Nat)
    (hs : s.Mutex = false)
    (h0 : mapGet s.Rooms roomID = none ∨
      ∃ a, mapGet s.Rooms roomID = some a ∧ (s.roomAt a).Players = [] ∧
        (s.roomAt a).Mutex = false)
    (hd : (joins.map Prod.fst).Nodup) :
    (∀ o ∈ joinResults roomID joins s, o = Outcome.returned none) ∧
    (playersOf (joinAll roomID joins s) roomID).length = joins.length ∧
    (∀ j ∈ joins, mapGet (playersOf (joinAll roomID joins s) roomID) j.1 = some j.2) ∧
    (joins ≠ [] → mapGet (joinAll roomID joins s).Rooms roomID ≠ none) ∧
    (JoinRoom roomID again player (Exec.start (joinAll roomID joins s))).out =
      Outcome.returned none ∧
    mapGet (JoinRoom roomID again player (Exec.start (joinAll roomID joins s))).ex.srv.Rooms
      roomID ≠ none ∧
    mapGet (playersOf (JoinRoom roomID again player
      (Exec.start (joinAll roomID joins s))).ex.srv roomID) again = some player ∧
    (again ∈ joins.map Prod.fst →
      (playersOf (JoinRoom roomID again player
        (Exec.start (joinAll roomID joins s))).ex.srv roomID).length = joins.length) := by
  have hf : ∀ a, mapGet s.Rooms roomID = some a → (s.roomAt a).Mutex = false := by
    intro a ha
    rcases h0 with h | ⟨b, hb, _, hfree⟩
    · rw [h] at ha
      cases ha
    · rw [hb] at ha
      cases ha
      exact hfree
  have hempty : playersOf s roomID = [] := by
    rcases h0 with h | ⟨b, hb, hp, _⟩
    · simp [playersOf, h]
    · simp [playersOf, hb, hp]
  obtain ⟨i1, i2, i3, i4, i5⟩ := joinAll_spec roomID joins s hs hf
  have hall : playersOf (joinAll roomID joins s) roomID = joins := by
    rw [i5, hempty, foldl_mapSet_fresh joins [] (by simpa using hd)]
    simp
  obtain ⟨k1, _, ⟨a, k3, _⟩, k4⟩ := JoinRoom_step (joinAll roomID joins s) roomID again player i2 i3
  refine ⟨i1, ?_, ?_, i4, k1, ?_, ?_, ?_⟩
  · rw [hall]
  · intro j hj
    rw [hall]
    exact mapGet_of_mem_nodup joins hd j hj
  · rw [k3]
    simp
  · rw [k4]
    exact mapGet_mapSet_self _ _ _
  · intro hin
    rw [k4, hall]
    exact mapSet_length_present joins again player hin

/-! ## The started flag -/

theorem SameGame.refl (s : Server) : SameGame s s :=
  ⟨rfl, rfl, rfl, rfl, fun _ => ⟨rfl, rfl, rfl⟩⟩

theorem SameGame.trans {s1 s2 s3 : Server} (h12 : SameGame s1 s2) (h23 : SameGame s2 s3) :
    SameGame s1 s3 := by
  obtain ⟨a1, a2, a3, a4, a5⟩ := h12
  obtain ⟨b1, b2, b3, b4, b5⟩ := h23
  refine ⟨b1.trans a1, b2.trans a2, b3.trans a3, b4.trans a4, fun a => ?_⟩
  exact ⟨(b5 a).1.trans (a5 a).1, (b5 a).2.1.trans (a5 a).2.1, (b5 a).2.2.trans (a5 a).2.2⟩

theorem forEach_sameGame {β : Type} (body : β → Exec → Res Unit)
    (hbody : ∀ x e, SameGame e.srv (body x e).ex.srv) (xs : List β) :
    ∀ e : Exec, SameGame e.srv (forEach body xs e).ex.srv := by
  induction xs with
  | nil => intro e; exact SameGame.refl _
  | cons x xs ih =>
    intro e
    have hx := hbody x e
    simp only [forEach, Res.andThen]
    split
    · exact SameGame.trans hx (ih _)
    · exact hx
    · exact hx

theorem BroadcastGameState_sameGame (werr : Nat → Bool) (roomID : String) (state : GameState)
    (e : Exec) : SameGame e.srv (BroadcastGameState werr roomID state e).ex.srv := by
  unfold BroadcastGameState
  simp only [Exec.callLock, Exec.holdServer]
  split
  · exact SameGame.refl _
  · split
    · exact ⟨rfl, rfl, rfl, rfl, fun _ => ⟨rfl, rfl, rfl⟩⟩
    · split
      · exact ⟨rfl, rfl, rfl, rfl, fun _ => ⟨rfl, rfl, rfl⟩⟩
      · rename_i a _ _
        simp only [Exec.unlockServer, Exec.unlockRoom, Exec.holdRoom, sendLoop_srv, Server.putRoom]
        refine ⟨rfl, rfl, rfl, rfl, fun b => ?_⟩
        by_cases hb : b = a
        · simp [hb]
        · simp [hb]

theorem startBody_sameGame (werr : Nat → Bool) (roomID : String) (p : String × Option Nat)
    (e : Exec) : SameGame e.srv (startBody werr roomID p e).ex.srv := by
  unfold startBody
  split
  · exact SameGame.refl _
  · exact BroadcastGameState_sameGame werr roomID _ e

theorem tickBody_sameGame (werr : Nat → Bool) (a : Nat) (p : String × Option Nat)
    (e : Exec) : SameGame e.srv (tickBody werr a p e).ex.srv := by
  unfold tickBody
  split
  · exact SameGame.refl _
  · exact BroadcastGameState_sameGame werr _ _ e

theorem scanReady_true (s : Server) (ps : List (String × Option Nat))
    (h : scanReady s ps = some true) :
    ∀ p ∈ ps, ∃ pa, p.2 = some pa ∧ (s.playerAt pa).IsReady = true := by
  induction ps with
  | nil => intro p hp; cases hp
  | cons q qs ih =>
    intro p hp
    simp only [scanReady] at h
    split at h
    · cases h
    · rename_i qa hq
      by_cases hr : (s.playerAt qa).IsReady = true
      · rw [if_pos hr] at h
        rcases List.mem_cons.mp hp with hpq | hpq
        · subst hpq
          exact ⟨qa, hq, hr⟩
        · exact ih h p hpq
      · rw [if_neg hr] at h
        cases h

theorem mapGet_some_ne_nil {α : Type} (m : List (String × α)) (k : String) (v : α)
    (h : mapGet m k = some v) : m ≠ [] := by
  intro hm
  rw [hm] at h
  simp [mapGet] at h

theorem flags_of_same (s s' : Server) (b : Nat) (hc : s'.roomCount = s.roomCount)
    (hg : (s'.roomAt b).GameStarted = (s.roomAt b).GameStarted) :
    s'.roomCount = s.roomCount ∧
    ((s.roomAt b).GameStarted = true → (s'.roomAt b).GameStarted = true) ∧
    ((s.roomAt b).GameStarted = false → (s'.roomAt b).GameStarted = true →
      (s'.roomAt b).Players ≠ [] ∧
      ∀ p ∈ (s'.roomAt b).Players, ∃ pa, p.2 = some pa ∧ (s'.playerAt pa).IsReady = true) := by
  refine ⟨hc, fun h => by rw [hg, h], fun h1 h2 => ?_⟩
  rw [hg, h1] at h2
  cases h2

theorem unlockRoom_sameGame (e : Exec) (a : Nat) : SameGame e.srv (e.unlockRoom a).srv := by
  refine ⟨rfl, rfl, rfl, rfl, fun b => ?_⟩
  by_cases hb : b = a <;> simp [Exec.unlockRoom, Server.putRoom, hb]

theorem holdRoom_sameGame (e : Exec) (a : Nat) : SameGame e.srv (e.holdRoom a).srv := by
  refine ⟨rfl, rfl, rfl, rfl, fun b => ?_⟩
  by_cases hb : b = a <;> simp [Exec.holdRoom, Server.putRoom, hb]

theorem unlockServer_sameGame (e : Exec) : SameGame e.srv e.unlockServer.srv :=
  ⟨rfl, rfl, rfl, rfl, fun _ => ⟨rfl, rfl, rfl⟩⟩

theorem returnNil_sameGame (a : Nat) (r : Res Unit) :
    SameGame r.ex.srv (returnNil a r).ex.srv := by
  unfold returnNil
  split
  · exact SameGame.trans (unlockRoom_sameGame _ a) (unlockServer_sameGame _)
  · exact SameGame.refl _
  · exact SameGame.trans (unlockRoom_sameGame _ a) (unlockServer_sameGame _)

theorem startGame_sameGame (werr : Nat → Bool) (roomID : String) (a : Nat) (e : Exec) :
    SameGame (e.setStarted a).srv (startGame werr roomID a e).ex.srv :=
  SameGame.trans
    (forEach_sameGame _ (fun p ex => startBody_sameGame werr roomID p ex) _ _)
    (returnNil_sameGame a _)

theorem SetPlayerReady_flags (werr : Nat → Bool) (roomID playerID : String) (e : Exec)
    (b : Nat) :
    (SetPlayerReady werr roomID playerID e).ex.srv.roomCount = e.srv.roomCount ∧
    ((e.srv.roomAt b).GameStarted = true →
      ((SetPlayerReady werr roomID playerID e).ex.srv.roomAt b).GameStarted = true) ∧
    ((e.srv.roomAt b).GameStarted = false →
      ((SetPlayerReady werr roomID playerID e).ex.srv.roomAt b).GameStarted = true →
      ((SetPlayerReady werr roomID playerID e).ex.srv.roomAt b).Players ≠ [] ∧
      ∀ p ∈ ((SetPlayerReady werr roomID playerID e).ex.srv.roomAt b).Players,
        ∃ pa, p.2 = some pa ∧
          ((SetPlayerReady werr roomID playerID e).ex.srv.playerAt pa).IsReady = true) := by
  unfold SetPlayerReady
  simp only [Exec.callLock, Exec.holdServer]
  split
  · exact flags_of_same _ _ _ rfl rfl
  · split
    · exact flags_of_same _ _ _ rfl rfl
    · rename_i a hroom
      split
      · exact flags_of_same _ _ _ rfl rfl
      · simp only [Exec.holdRoom, Server.putRoom, if_true]
        split
        · refine flags_of_same _ _ b rfl ?_
          by_cases hb : b = a <;> simp [Exec.unlockServer, Exec.unlockRoom, Server.putRoom, hb]
        · refine flags_of_same _ _ b rfl ?_
          by_cases hb : b = a <;> simp [Exec.unlockServer, Exec.unlockRoom, Server.putRoom, hb]
        · rename_i pa hpl
          simp only [Server.putPlayer, Server.putRoom, if_true]
          split
          · refine flags_of_same _ _ b rfl ?_
            by_cases hb : b = a <;> simp [Exec.unlockServer, Exec.unlockRoom, Server.putRoom, hb]
          · rename_i allReady hscan
            split
            · rename_i hstart
              simp only [Bool.and_eq_true, Bool.not_eq_true'] at hstart
              obtain ⟨hall, hns⟩ := hstart
              subst hall
              have hready := scanReady_true _ _ hscan
              refine ⟨(startGame_sameGame werr roomID a _).2.1, ?_, ?_⟩
              · intro hb
                rw [((startGame_sameGame werr roomID a _).2.2.2.2 b).1]
                by_cases hba : b = a <;> simp [Exec.setStarted, Server.putRoom, hba, hb]
              · intro hb1 hb2
                rw [((startGame_sameGame werr roomID a _).2.2.2.2 b).1] at hb2
                rw [((startGame_sameGame werr roomID a _).2.2.2.2 b).2.1,
                  (startGame_sameGame werr roomID a _).2.2.2.1]
                by_cases hba : b = a
                · subst hba
                  simp only [Exec.setStarted, Server.putRoom, if_true]
                  exact ⟨mapGet_some_ne_nil _ _ _ hpl, hready⟩
                · simp [Exec.setStarted, Server.putRoom, hba, hb1] at hb2
            · refine flags_of_same _ _ b rfl ?_
              by_cases hb : b = a <;> simp [Exec.unlockServer, Exec.unlockRoom, Server.putRoom, hb]

theorem startedAt_of_sameGame {s s' : Server} (h : SameGame s s') (a : Nat) :
    startedAt s' a = startedAt s a := by
  simp [startedAt, h.2.1, (h.2.2.2.2 a).1]

theorem tickRoom_sameGame (werr : Nat → Bool) (a : Nat) (e : Exec) :
    SameGame e.srv (tickRoom werr a e).ex.srv := by
  unfold tickRoom
  simp only [Exec.callLock]
  split
  · exact SameGame.refl _
  · have h1 : SameGame e.srv
        (if (((Exec.holdRoom { e with locks := e.locks ++ [LockEv.lock (LockId.room a)] } a).srv.roomAt
            a).GameStarted = true) then
          forEach (tickBody werr a)
            ((Exec.holdRoom { e with locks := e.locks ++ [LockEv.lock (LockId.room a)] } a).srv.roomAt
              a).Players
            (Exec.holdRoom { e with locks := e.locks ++ [LockEv.lock (LockId.room a)] } a)
        else (⟨Outcome.returned (),
          Exec.holdRoom { e with locks := e.locks ++ [LockEv.lock (LockId.room a)] } a⟩ :
            Res Unit)).ex.srv := by
      split
      · exact SameGame.trans (holdRoom_sameGame _ a)
          (forEach_sameGame _ (fun p ex => tickBody_sameGame werr a p ex) _ _)
      · exact holdRoom_sameGame _ a
    simp only [Res.andThen]
    split
    · exact SameGame.trans h1 (unlockRoom_sameGame _ a)
    · exact h1
    · exact h1

theorem PeriodicTick_sameGame (werr : Nat → Bool) (e : Exec) :
    SameGame e.srv (PeriodicTick werr e).ex.srv := by
  unfold PeriodicTick
  simp only [Exec.callLock]
  split
  · exact SameGame.refl _
  · have h1 : SameGame e.srv
        (forEach (fun (p : String × Nat) ex => tickRoom werr p.2 ex)
          (Exec.holdServer { e with locks := e.locks ++ [LockEv.lock LockId.server] }).srv.Rooms
          (Exec.holdServer { e with locks := e.locks ++ [LockEv.lock LockId.server] })).ex.srv :=
      SameGame.trans (⟨rfl, rfl, rfl, rfl, fun _ => ⟨rfl, rfl, rfl⟩⟩ :
          SameGame e.srv (Exec.holdServer
            { e with locks := e.locks ++ [LockEv.lock LockId.server] }).srv)
        (forEach_sameGame _ (fun (p : String × Nat) ex => tickRoom_sameGame werr p.2 ex) _ _)
    simp only [Res.andThen]
    split
    · exact SameGame.trans h1 (unlockServer_sameGame _)
    · exact h1
    · exact h1

theorem joinLocked_flags (a : Nat) (playerID : String) (player : Option Nat) (e : Exec) (b : Nat) :
    (joinLocked a playerID player e).ex.srv.roomCount = e.srv.roomCount ∧
    ((joinLocked a playerID player e).ex.srv.roomAt b).GameStarted =
      (e.srv.roomAt b).GameStarted := by
  unfold joinLocked
  split
  · exact ⟨rfl, rfl⟩
  · refine ⟨rfl, ?_⟩
    by_cases hb : b = a <;>
      simp [Exec.unlockServer, Exec.unlockRoom, Exec.holdRoom, Exec.callLock, Server.putRoom, hb]

theorem startedAt_CreateRoom (roomID : String) (e : Exec) (a : Nat) :
    startedAt (CreateRoom roomID e).ex.srv a = startedAt e.srv a := by
  unfold CreateRoom
  split
  · rfl
  · simp only [startedAt, Exec.unlockServer, Exec.holdServer, Exec.callLock, Server.putRoom]
    by_cases h : a = e.srv.roomCount
    · simp [h]
    · by_cases h2 : a < e.srv.roomCount
      · have h3 : a < e.srv.roomCount + 1 := by omega
        simp [h, h2, h3]
      · have h3 : ¬ a < e.srv.roomCount + 1 := by omega
        simp [h2, h3]

theorem startedAt_JoinRoom (roomID playerID : String) (player : Option Nat) (e : Exec) (a : Nat) :
    startedAt (JoinRoom roomID playerID player e).ex.srv a = startedAt e.srv a := by
  unfold JoinRoom
  simp only [Exec.callLock, Exec.holdServer]
  split
  · rfl
  · split
    · simp only [startedAt]
      rw [(joinLocked_flags _ playerID player _ a).1, (joinLocked_flags _ playerID player _ a).2]
    · simp only [startedAt]
      rw [(joinLocked_flags _ playerID player _ a).1, (joinLocked_flags _ playerID player _ a).2]
      simp only [Exec.holdServer, Exec.callLock, Server.putRoom]
      by_cases h : a = e.srv.roomCount
      · simp [h]
      · by_cases h2 : a < e.srv.roomCount
        · have h3 : a < e.srv.roomCount + 1 := by omega
          simp [h, h2, h3]
        · have h3 : ¬ a < e.srv.roomCount + 1 := by omega
          simp [h2, h3]

theorem startedAt_teardown (roomID playerID : String) (e : Exec) (a : Nat) :
    startedAt (teardown roomID playerID e).ex.srv a = startedAt e.srv a := by
  unfold teardown
  split
  · rfl
  · rename_i b _
    split
    · rfl
    · simp only [startedAt]
      by_cases hb : a = b <;>
        simp [Exec.unlockRoom, Exec.holdRoom, Exec.callLock, Server.putRoom, hb]

/-- One operation, on any server: a set flag stays set, and a flag that becomes
set is set by a `SetPlayerReady` that leaves the room non-empty and all of its
players ready. -/
theorem step_started (werr : Nat → Bool) (op : Op) (s : Server) (a : Nat) :
    (startedAt s a = true → startedAt (step werr op s) a = true) ∧
    (startedAt s a = false → startedAt (step werr op s) a = true →
      (∃ roomID playerID, op = Op.setPlayerReady roomID playerID) ∧
      ((step werr op s).roomAt a).Players ≠ [] ∧
      ∀ p ∈ ((step werr op s).roomAt a).Players,
        ∃ pa, p.2 = some pa ∧ ((step werr op s).playerAt pa).IsReady = true) := by
  have same : startedAt (step werr op s) a = startedAt s a →
      (startedAt s a = true → startedAt (step werr op s) a = true) ∧
      (startedAt s a = false → startedAt (step werr op s) a = true →
        (∃ roomID playerID, op = Op.setPlayerReady roomID playerID) ∧
        ((step werr op s).roomAt a).Players ≠ [] ∧
        ∀ p ∈ ((step werr op s).roomAt a).Players,
          ∃ pa, p.2 = some pa ∧ ((step werr op s).playerAt pa).IsReady = true) := by
    intro h
    refine ⟨fun h1 => by rw [h, h1], fun h1 h2 => ?_⟩
    rw [h, h1] at h2
    cases h2
  cases op with
  | createRoom r => exact same (startedAt_CreateRoom r _ a)
  | joinRoom r p pl => exact same (startedAt_JoinRoom r p pl _ a)
  | broadcast r st =>
    exact same (startedAt_of_sameGame (BroadcastGameState_sameGame werr r st _) a)
  | teardown r p => exact same (startedAt_teardown r p _ a)
  | tick => exact same (startedAt_of_sameGame (PeriodicTick_sameGame werr _) a)
  | setPlayerReady r p =>
    obtain ⟨h1, h2, h3⟩ := SetPlayerReady_flags werr r p (Exec.start s) a
    have hc : (step werr (Op.setPlayerReady r p) s).roomCount = s.roomCount := h1
    refine ⟨?_, ?_⟩
    · intro h
      simp only [startedAt, Bool.and_eq_true, decide_eq_true_eq] at h ⊢
      rw [hc]
      exact ⟨h.1, h2 h.2⟩
    · intro hf ht
      simp only [startedAt, Bool.and_eq_true, decide_eq_true_eq] at ht
      rw [hc] at ht
      have hf' : (s.roomAt a).GameStarted = false := by
        cases hg : (s.roomAt a).GameStarted with
        | false => rfl
        | true => simp [startedAt, ht.1, hg] at hf
      exact ⟨⟨r, p, rfl⟩, h3 hf' ht.2⟩

theorem run_head (werr : Nat → Bool) (ops : List Op) (s : Server) :
    ∃ t, run werr ops s = s :: t := by
  cases ops with
  | nil => exact ⟨[], rfl⟩
  | cons op ops => exact ⟨_, rfl⟩

theorem run_flags (werr : Nat → Bool) (a : Nat) (ops : List Op) :
    ∀ s : Server,
      falls ((run werr ops s).map (fun t => startedAt t a)) = 0 ∧
      rises ((run werr ops s).map (fun t => startedAt t a)) ≤
        (if startedAt s a = true then 0 else 1) := by
  induction ops with
  | nil => intro s; simp [run, falls, rises]
  | cons op ops ih =>
    intro s
    obtain ⟨t, ht⟩ := run_head werr ops (step werr op s)
    obtain ⟨i1, i2⟩ := ih (step werr op s)
    rw [ht] at i1 i2
    obtain ⟨m1, _⟩ := step_started werr op s a
    simp only [run, ht, List.map_cons, falls, rises]
    simp only [List.map_cons] at i1 i2
    cases hs : startedAt s a with
    | true =>
      have hs' := m1 hs
      rw [hs'] at i1 i2 ⊢
      simp at i2 ⊢
      exact ⟨i1, i2⟩
    | false =>
      cases hs' : startedAt (step werr op s) a with
      | true =>
        rw [hs'] at i1 i2
        simp at i2 ⊢
        exact ⟨i1, i2⟩
      | false =>
        rw [hs'] at i1 i2
        simp at i2 ⊢
        exact ⟨i1, i2⟩

/-- C3: along every sequence of registry operations (`CreateRoom`, `JoinRoom`,
`SetPlayerReady`, `BroadcastGameState`, session teardown, a synchronizer tick)
from any server, and for every room object (address `a`), the started flag
goes from false to true at most once and never from true to false; and an
operation after which the flag is set while it was not set before is a
`SetPlayerReady`, which leaves the room's player map non-empty and every player
in it with `IsReady = true`. -/
theorem started_once (werr : Nat → Bool) (ops : List Op) (s0 : Server) (a : Nat) :
    rises ((run werr ops s0).map (fun t => startedAt t a)) ≤ 1 ∧
    falls ((run werr ops s0).map (fun t => startedAt t a)) = 0 ∧
    ∀ (op : Op) (s : Server), startedAt s a = false → startedAt (step werr op s) a = true →
      (∃ roomID playerID, op = Op.setPlayerReady roomID playerID) ∧
      ((step werr op s).roomAt a).Players ≠ [] ∧
      ∀ p ∈ ((step werr op s).roomAt a).Players,
        ∃ pa, p.2 = some pa ∧ ((step werr op s).playerAt pa).IsReady = true := by
  obtain ⟨h1, h2⟩ := run_flags werr a ops s0
  refine ⟨?_, h1, fun op s => (step_started werr op s a).2⟩
  refine le_trans h2 ?_
  split <;> omega

/-! ## SetPlayerReady -/

/-- A `BroadcastGameState` call made while `s.Mutex` is held blocks in its first
statement. -/
theorem BroadcastGameState_held (werr : Nat → Bool) (roomID : String) (state : GameState)
    (e : Exec) (h : e.srv.Mutex = true) :
    BroadcastGameState werr roomID state e =
      ⟨Outcome.blocked LockId.server, e.callLock LockId.server⟩ := by
  simp [BroadcastGameState, h]

/-- The block `startGame` runs with `s.Mutex` held by `SetPlayerReady`: when the
first entry of the room is a player, its `BroadcastGameState` call blocks. -/
theorem startGame_blocked (werr : Nat → Bool) (roomID : String) (a : Nat) (e : Exec)
    (p : String × Option Nat) (ps : List (String × Option Nat)) (pa : Nat)
    (h : e.srv.Mutex = true) (hl : (e.srv.roomAt a).Players = p :: ps) (hp : p.2 = some pa) :
    startGame werr roomID a e =
      ⟨Outcome.blocked LockId.server, (e.setStarted a).callLock LockId.server⟩ := by
  have hpl : ((e.setStarted a).srv.roomAt a).Players = (e.srv.roomAt a).Players := by
    simp [Exec.setStarted, Server.putRoom]
  have hm : (e.setStarted a).srv.Mutex = true := h
  unfold startGame
  rw [hpl, hl]
  simp only [forEach, Res.andThen, startBody, hp]
  rw [BroadcastGameState_held werr roomID _ _ hm]
  rfl

/-- The scan over a map without nil entries is the conjunction of the flags. -/
theorem scanReady_members (s : Server) (ps : List (String × Option Nat))
    (h : ∀ p ∈ ps, ∃ pa, p.2 = some pa) :
    scanReady s ps = some ((members ps).all (fun pa => (s.playerAt pa).IsReady)) := by
  induction ps with
  | nil => rfl
  | cons q qs ih =>
    obtain ⟨qa, hq⟩ := h q (List.mem_cons_self _ _)
    have ih' := ih (fun p hp => h p (List.mem_cons_of_mem _ hp))
    simp only [scanReady, hq, members, List.filterMap_cons, List.all_cons]
    by_cases hr : (s.playerAt qa).IsReady = true
    · rw [if_pos hr, ih', hr]
      simp [members]
    · rw [if_neg hr]
      simp [hr]

/-- The two error returns of `SetPlayerReady`: the error is returned, nothing
is sent and the server is left as it was found. -/
theorem SetPlayerReady_not_found (werr : Nat → Bool) (s : Server) (roomID playerID : String)
    (hs : s.Mutex = false)
    (hf : ∀ a, mapGet s.Rooms roomID = some a → (s.roomAt a).Mutex = false) :
    (mapGet s.Rooms roomID = none →
      (SetPlayerReady werr roomID playerID (Exec.start s)).out =
        Outcome.returned (some "room not found") ∧
      (SetPlayerReady werr roomID playerID (Exec.start s)).ex.srv = s ∧
      (SetPlayerReady werr roomID playerID (Exec.start s)).ex.sends = []) ∧
    (∀ a, mapGet s.Rooms roomID = some a → mapGet (s.roomAt a).Players playerID = none →
      (SetPlayerReady werr roomID playerID (Exec.start s)).out =
        Outcome.returned (some "player not found in room") ∧
      (SetPlayerReady werr roomID playerID (Exec.start s)).ex.srv = s ∧
      (SetPlayerReady werr roomID playerID (Exec.start s)).ex.sends = []) := by
  constructor
  · intro hm
    simp [SetPlayerReady, Exec.start, Exec.callLock, Exec.holdServer, Exec.unlockServer, hs, hm]
    cases s
    simp at hs
    simp [hs]
  · intro a hm hp
    have ha := hf a hm
    simp [SetPlayerReady, Exec.start, Exec.callLock, Exec.holdServer, Exec.unlockServer,
      Exec.holdRoom, Exec.unlockRoom, Server.putRoom, hs, hm, ha, hp]
    cases s with
    | mk Rooms Mutex roomAt playerAt roomCount playerCount =>
      simp at hs ha
      simp [hs]
      funext b
      by_cases hb : b = a
      · subst hb
        simp
        cases hr : roomAt b with
        | mk ID Players Mutex GameStarted =>
          rw [hr] at ha
          simp at ha
          simp [ha]
      · simp [hb]

/-- A call of `SetPlayerReady` that finds the player, in a room without nil
entries, and does not start the game (the room is started already, or another
player is not ready) returns nil. -/
theorem SetPlayerReady_returns_nil (werr : Nat → Bool) (s : Server) (roomID playerID : String)
    (a pa : Nat) (hs : s.Mutex = false) (hm : mapGet s.Rooms roomID = some a)
    (ha : (s.roomAt a).Mutex = false)
    (hp : mapGet (s.roomAt a).Players playerID = some (some pa))
    (hnn : ∀ p ∈ (s.roomAt a).Players, ∃ qa, p.2 = some qa)
    (hno : (s.roomAt a).GameStarted = true ∨
      ∃ qa ∈ members (s.roomAt a).Players, qa ≠ pa ∧ (s.playerAt qa).IsReady = false) :
    (SetPlayerReady werr roomID playerID (Exec.start s)).out = Outcome.returned none := by
  have hscan := scanReady_members
    ((({ s with Mutex := true } : Server).putRoom a { s.roomAt a with Mutex := true }).putPlayer pa
      { s.playerAt pa with IsReady := true }) (s.roomAt a).Players hnn
  have hcond : ((members (s.roomAt a).Players).all
      (fun qa => (if qa = pa then ({ s.playerAt pa with IsReady := true } : Player)
        else s.playerAt qa).IsReady) && !(s.roomAt a).GameStarted) = false := by
    rcases hno with h | ⟨qa, hqm, hne, hr⟩
    · simp [h]
    · rw [Bool.and_eq_false_iff]
      left
      rw [List.all_eq_false]
      exact ⟨qa, hqm, by simp [hne, hr]⟩
  simp only [Server.putPlayer, Server.putRoom] at hscan
  simp only [SetPlayerReady, Exec.start, Exec.callLock, Exec.holdServer, Exec.holdRoom,
    Server.putRoom, Server.putPlayer, hs, hm, ha, hp, if_true, Bool.false_eq_true, if_false,
    List.nil_append, hscan, hcond]

/-- The run of `SetPlayerReady` that starts the game, in a room without nil
entries: the player is marked, the flag is set and the first broadcast blocks
on `s.Mutex`; nothing is sent and nothing is unlocked. -/
theorem SetPlayerReady_start_run (werr : Nat → Bool) (s : Server) (roomID playerID : String)
    (a pa : Nat) (hs : s.Mutex = false) (hm : mapGet s.Rooms roomID = some a)
    (ha : (s.roomAt a).Mutex = false)
    (hp : mapGet (s.roomAt a).Players playerID = some (some pa))
    (hnn : ∀ p ∈ (s.roomAt a).Players, ∃ qa, p.2 = some qa)
    (hothers : ∀ qa ∈ members (s.roomAt a).Players, qa ≠ pa → (s.playerAt qa).IsReady = true)
    (hns : (s.roomAt a).GameStarted = false) :
    SetPlayerReady werr roomID playerID (Exec.start s) =
      ⟨Outcome.blocked LockId.server,
        (Exec.setStarted
          { srv := (({ s with Mutex := true } : Server).putRoom a
              { s.roomAt a with Mutex := true }).putPlayer pa
              { s.playerAt pa with IsReady := true },
            sends := [],
            locks := [LockEv.lock LockId.server, LockEv.lock (LockId.room a)] }
          a).callLock LockId.server⟩ := by
  have hscan := scanReady_members
    ((({ s with Mutex := true } : Server).putRoom a { s.roomAt a with Mutex := true }).putPlayer pa
      { s.playerAt pa with IsReady := true }) (s.roomAt a).Players hnn
  have hcond : ((members (s.roomAt a).Players).all
      (fun qa => (if qa = pa then ({ s.playerAt pa with IsReady := true } : Player)
        else s.playerAt qa).IsReady) && !(s.roomAt a).GameStarted) = true := by
    rw [hns]
    simp only [Bool.not_false, Bool.and_true, List.all_eq_true]
    intro qa hqm
    by_cases hne : qa = pa
    · simp [hne]
    · simp [hne, hothers qa hqm hne]
  simp only [Server.putPlayer, Server.putRoom] at hscan
  simp only [SetPlayerReady, Exec.start, Exec.callLock, Exec.holdServer, Exec.holdRoom,
    Server.putRoom, Server.putPlayer, hs, hm, ha, hp, if_true, Bool.false_eq_true, if_false,
    List.nil_append, hscan, hcond]
  cases hl : (s.roomAt a).Players with
  | nil => exact absurd hl (mapGet_some_ne_nil _ _ _ hp)
  | cons p ps =>
    obtain ⟨qa, hq⟩ := hnn p (by rw [hl]; exact List.mem_cons_self _ _)
    rw [startGame_blocked werr roomID a _ p ps qa rfl (by simp [hl]) hq]
    rfl

/-! ## The session: teardown and messages -/

theorem mapGet_mapDel_self {α : Type} (m : List (String × α)) (k : String) :
    mapGet (mapDel m k) k = none := by
  rw [mapGet_eq_none_iff]
  simp [mapDel, List.mem_filter]

theorem mapGet_mapDel_other {α : Type} (m : List (String × α)) (k k2 : String)
    (hne : k2 ≠ k) : mapGet (mapDel m k) k2 = mapGet m k2 := by
  induction m with
  | nil => simp [mapDel, mapGet]
  | cons e m ih =>
    obtain ⟨k', v'⟩ := e
    by_cases h : k' = k
    · subst h
      have : ¬ k' = k2 := fun hh => hne hh.symm
      simpa [mapDel, mapGet, this] using ih
    · by_cases h2 : k' = k2
      · subst h2
        simp [mapDel, mapGet, h, List.filter_cons]
      · simpa [mapDel, mapGet, h, h2] using ih

/-- On every exit of the message loop other than a blocked call, by the end of
the messages or by a panic, `handleConnection` ends with the teardown. -/
theorem sessionRun_teardown (werr : Nat → Bool) (playerID roomID : String) (pa : Nat)
    (msgs : List Msg) (e : Exec)
    (h : ∀ m, (messageLoop werr roomID pa msgs e).out ≠ Outcome.blocked m) :
    (sessionRun werr playerID roomID pa msgs e).ex =
      (teardown roomID playerID (messageLoop werr roomID pa msgs e).ex).ex := by
  unfold sessionRun
  simp only
  split
  · rfl
  · rename_i m hm
    exact absurd hm (h m)
  · split <;> rfl

/-- C8 (as amended): when the session's room ID is bound to a room whose mutex
is free, the teardown of a session returns, sends no message, and removes from
that room's player map the entry under the session's player ID, whichever
session stored it; the entries under every other ID, the room's started flag,
every other room object, the room registry and every player are unchanged;
and the handler ends with this teardown both when the message loop is left at
the end of the messages and when a message panics. -/
theorem teardown_removes_key (s : Server) (roomID playerID : String) (a : Nat)
    (hm : mapGet s.Rooms roomID = some a) (ha : (s.roomAt a).Mutex = false) :
    (teardown roomID playerID (Exec.start s)).out = Outcome.returned () ∧
    (teardown roomID playerID (Exec.start s)).ex.sends = [] ∧
    ((teardown roomID playerID (Exec.start s)).ex.srv.roomAt a).Players =
      mapDel (s.roomAt a).Players playerID ∧
    mapGet ((teardown roomID playerID (Exec.start s)).ex.srv.roomAt a).Players playerID = none ∧
    (∀ k, k ≠ playerID →
      mapGet ((teardown roomID playerID (Exec.start s)).ex.srv.roomAt a).Players k =
        mapGet (s.roomAt a).Players k) ∧
    ((teardown roomID playerID (Exec.start s)).ex.srv.roomAt a).GameStarted =
      (s.roomAt a).GameStarted ∧
    (∀ b, b ≠ a → (teardown roomID playerID (Exec.start s)).ex.srv.roomAt b = s.roomAt b) ∧
    (teardown roomID playerID (Exec.start s)).ex.srv.Rooms = s.Rooms ∧
    (teardown roomID playerID (Exec.start s)).ex.srv.playerAt = s.playerAt ∧
    (∀ (werr : Nat → Bool) (pa : Nat) (msgs : List Msg) (e : Exec),
      (∀ m, (messageLoop werr roomID pa msgs e).out ≠ Outcome.blocked m) →
      (sessionRun werr playerID roomID pa msgs e).ex =
        (teardown roomID playerID (messageLoop werr roomID pa msgs e).ex).ex) := by
  have hp : ((teardown roomID playerID (Exec.start s)).ex.srv.roomAt a).Players =
      mapDel (s.roomAt a).Players playerID := by
    simp [teardown, Exec.start, Exec.callLock, Exec.holdRoom, Exec.unlockRoom, Server.putRoom,
      hm, ha]
  refine ⟨?_, ?_, hp, ?_, ?_, ?_, ?_, ?_, ?_, fun werr pa msgs e h =>
    sessionRun_teardown werr playerID roomID pa msgs e h⟩
  · simp [teardown, Exec.start, hm, ha]
  · simp [teardown, Exec.start, Exec.callLock, Exec.holdRoom, Exec.unlockRoom, hm, ha]
  · rw [hp]
    exact mapGet_mapDel_self _ _
  · intro k hk
    rw [hp]
    exact mapGet_mapDel_other _ _ _ hk
  · simp [teardown, Exec.start, Exec.callLock, Exec.holdRoom, Exec.unlockRoom, Server.putRoom,
      hm, ha]
  · intro b hb
    simp [teardown, Exec.start, Exec.callLock, Exec.holdRoom, Exec.unlockRoom, Server.putRoom,
      hm, ha, hb]
  · simp [teardown, Exec.start, Exec.callLock, Exec.holdRoom, Exec.unlockRoom, Server.putRoom,
      hm, ha]
  · simp [teardown, Exec.start, Exec.callLock, Exec.holdRoom, Exec.unlockRoom, Server.putRoom,
      Server.putPlayer, hm, ha]

theorem decoded_lookup (msg : Msg) (hd : Msg.decoded msg = true) (k : String) (v : Iface)
    (h : mapGet msg k = some v) : v.decoded = true := by
  induction msg with
  | nil => simp [mapGet] at h
  | cons e m ih =>
    obtain ⟨k', v'⟩ := e
    simp only [Msg.decoded, List.all_cons, Bool.and_eq_true] at hd
    by_cases hk : k' = k
    · simp [mapGet, hk] at h
      rw [← h]
      exact hd.1
    · simp [mapGet, hk] at h
      exact ih hd.2 h

/-- Every message of type "update" that `ReadJSON` can deliver makes the handler
panic in the type assertion `msg["field"].([20][10]int)`, before any broadcast. -/
theorem handleMessage_update_panics (werr : Nat → Bool) (roomID : String) (pa : Nat)
    (msg : Msg) (e : Exec) (hd : Msg.decoded msg = true)
    (ht : mapGet msg "type" = some (Iface.string "update")) :
    handleMessage werr roomID pa msg e = ⟨Outcome.panicked, e⟩ := by
  unfold handleMessage
  rw [ht]
  simp only [if_true]
  cases hf : mapGet msg "field" with
  | none => rfl
  | some v =>
    cases v with
    | grid f =>
      have := decoded_lookup msg hd "field" _ hf
      simp [Iface.decoded] at this
    | _ => rfl

/-- No message makes the handler store anything in a `Player`: the players on
the heap and the rooms' player maps are as before. -/
theorem handleMessage_stores_nothing (werr : Nat → Bool) (roomID : String) (pa : Nat)
    (msg : Msg) (e : Exec) :
    SameGame e.srv (handleMessage werr roomID pa msg e).ex.srv := by
  unfold handleMessage
  repeat' split
  all_goals first
    | exact SameGame.refl _
    | exact BroadcastGameState_sameGame werr roomID _ e

/-! ## Scenarios -/

/-- Witness for C1: room "r1" with A and B, a state of A, every write failing;
the one call is made for B, on B's connection. -/
theorem BroadcastGameState_sends_witness :
    roomAB.Mutex = false ∧
    (∀ a, mapGet roomAB.Rooms "r1" = some a → (roomAB.roomAt a).Mutex = false) ∧
    (∀ a, mapGet roomAB.Rooms "r1" = some a → ∀ p ∈ (roomAB.roomAt a).Players,
      ∃ pa, p.2 = some pa ∧
        ((roomAB.playerAt pa).ID ≠ "A" → (roomAB.playerAt pa).Conn ≠ none)) ∧
    (BroadcastGameState allErr "r1" ⟨"A", zeroGrid, "I", 0⟩ (Exec.start roomAB)).out =
      Outcome.returned () ∧
    (BroadcastGameState allErr "r1" ⟨"A", zeroGrid, "I", 0⟩
      (Exec.start roomAB)).ex.sends.map Send.dest =
      recipients roomAB ⟨"A", zeroGrid, "I", 0⟩ (roomAB.roomAt 0).Players ∧
    recipients roomAB ⟨"A", zeroGrid, "I", 0⟩ (roomAB.roomAt 0).Players = [1] ∧
    (roomAB.playerAt 1).ID = "B" ∧ (roomAB.playerAt 1).Conn = some 2 :=
  have h0 : mapGet roomAB.Rooms "r1" = some 0 := by decide
  have hfree : ∀ a, mapGet roomAB.Rooms "r1" = some a → (roomAB.roomAt a).Mutex = false := by
    intro a h
    rw [h0] at h
    cases h
    decide
  have hconn : ∀ a, mapGet roomAB.Rooms "r1" = some a → ∀ p ∈ (roomAB.roomAt a).Players,
      ∃ pa, p.2 = some pa ∧
        ((roomAB.playerAt pa).ID ≠ "A" → (roomAB.playerAt pa).Conn ≠ none) := by
    intro a h
    rw [h0] at h
    cases h
    decide
  ⟨by decide, hfree, hconn,
    (BroadcastGameState_sends allErr roomAB "r1" ⟨"A", zeroGrid, "I", 0⟩ (by decide) hfree
      hconn).1,
    (BroadcastGameState_sends allErr roomAB "r1" ⟨"A", zeroGrid, "I", 0⟩ (by decide) hfree
      hconn).2.1 0 h0,
    by decide, by decide, by decide⟩

/-- Witness for C7: A, B and C join the absent room "r1" of a new server, then
B joins again with another player. -/
theorem JoinRoom_members_witness :
    NewServer.Mutex = false ∧
    (mapGet NewServer.Rooms "r1" = none ∨
      ∃ a, mapGet NewServer.Rooms "r1" = some a ∧ (NewServer.roomAt a).Players = [] ∧
        (NewServer.roomAt a).Mutex = false) ∧
    ([("A", some 0), ("B", some 1), ("C", some 2)].map Prod.fst).Nodup ∧
    (playersOf (joinAll "r1" [("A", some 0), ("B", some 1), ("C", some 2)] NewServer)
      "r1").length = 3 ∧
    mapGet (playersOf (JoinRoom "r1" "B" (some 7)
      (Exec.start (joinAll "r1" [("A", some 0), ("B", some 1), ("C", some 2)]
        NewServer))).ex.srv "r1") "B" = some (some 7) ∧
    ("B" ∈ [("A", some 0), ("B", some 1), ("C", some 2)].map Prod.fst →
      (playersOf (JoinRoom "r1" "B" (some 7)
        (Exec.start (joinAll "r1" [("A", some 0), ("B", some 1), ("C", some 2)]
          NewServer))).ex.srv "r1").length =
          [("A", some 0), ("B", some 1), ("C", some 2)].length) :=
  ⟨by decide, Or.inl (by decide), by decide,
    (JoinRoom_members NewServer "r1" [("A", some 0), ("B", some 1), ("C", some 2)] "B" (some 7)
      (by decide) (Or.inl (by decide)) (by decide)).2.1,
    (JoinRoom_members NewServer "r1" [("A", some 0), ("B", some 1), ("C", some 2)] "B" (some 7)
      (by decide) (Or.inl (by decide)) (by decide)).2.2.2.2.2.2.1,
    (JoinRoom_members NewServer "r1" [("A", some 0), ("B", some 1), ("C", some 2)] "B" (some 7)
      (by decide) (Or.inl (by decide)) (by decide)).2.2.2.2.2.2.2⟩

/-- C2, at the failing input: room "r1" with A, B, C where A and B are ready
(their calls returned nil and the room is not started) and no mutex is held;
`SetPlayerReady("r1", "C")` marks C ready and sets the started flag, but it
does not return nil: it blocks in the `Lock()` of its first
`BroadcastGameState` call, on `s.Mutex`, which it holds itself, and no player
is sent any reset message. -/
theorem last_ready_call_blocks :
    (SetPlayerReady noErr "r1" "A" (Exec.start roomABC)).out = Outcome.returned none ∧
    (SetPlayerReady noErr "r1" "B"
      (Exec.start (SetPlayerReady noErr "r1" "A" (Exec.start roomABC)).ex.srv)).out =
      Outcome.returned none ∧
    (roomABCready.roomAt 0).Players = [("A", some 0), ("B", some 1), ("C", some 2)] ∧
    (roomABCready.playerAt 0).IsReady = true ∧ (roomABCready.playerAt 1).IsReady = true ∧
    (roomABCready.playerAt 2).IsReady = false ∧
    (roomABCready.roomAt 0).GameStarted = false ∧
    roomABCready.Mutex = false ∧ (roomABCready.roomAt 0).Mutex = false ∧
    (SetPlayerReady noErr "r1" "C" (Exec.start roomABCready)).out ≠ Outcome.returned none ∧
    (SetPlayerReady noErr "r1" "C" (Exec.start roomABCready)).out =
      Outcome.blocked LockId.server ∧
    ((SetPlayerReady noErr "r1" "C" (Exec.start roomABCready)).ex.srv.playerAt 2).IsReady = true ∧
    ((SetPlayerReady noErr "r1" "C" (Exec.start roomABCready)).ex.srv.roomAt 0).GameStarted = true ∧
    (SetPlayerReady noErr "r1" "C" (Exec.start roomABCready)).ex.sends = [] := by
  decide

/-- Counterexample to C8 as stated: a first session (connection 1, player at
address 0) and then a second session (connection 2, player at address 1) join
room "r1" under the player ID "A"; the room then holds the second session's
player, and the teardown of the first session removes it. -/
theorem teardown_removes_other_session :
    (roomAA.playerAt 0).Conn = some 1 ∧ (roomAA.playerAt 1).Conn = some 2 ∧
    roomAA.Rooms = [("r1", 0)] ∧ (roomAA.roomAt 0).Players = [("A", some 1)] ∧
    (teardown "r1" "A" (Exec.start roomAA)).out = Outcome.returned () ∧
    ((teardown "r1" "A" (Exec.start roomAA)).ex.srv.roomAt 0).Players = [] ∧
    ¬ (∀ p ∈ (roomAA.roomAt 0).Players, p.2 ≠ some 0 →
        p ∈ ((teardown "r1" "A" (Exec.start roomAA)).ex.srv.roomAt 0).Players) := by
  decide

/-- Witness for C8 as amended: the teardown of A's session in room "r1" with A
and B leaves B. -/
theorem teardown_removes_key_witness :
    mapGet roomAB.Rooms "r1" = some 0 ∧ (roomAB.roomAt 0).Mutex = false ∧
    (teardown "r1" "A" (Exec.start roomAB)).out = Outcome.returned () ∧
    (teardown "r1" "A" (Exec.start roomAB)).ex.sends = [] ∧
    ((teardown "r1" "A" (Exec.start roomAB)).ex.srv.roomAt 0).Players =
      mapDel (roomAB.roomAt 0).Players "A" ∧
    mapDel (roomAB.roomAt 0).Players "A" = [("B", some 1)] :=
  ⟨by decide, by decide,
    (teardown_removes_key roomAB "r1" "A" 0 (by decide) (by decide)).1,
    (teardown_removes_key roomAB "r1" "A" 0 (by decide) (by decide)).2.1,
    (teardown_removes_key roomAB "r1" "A" 0 (by decide) (by decide)).2.2.1,
    by decide⟩

/-- C6, at the failing input: in room "r1" with the single player A, not ready
and not started, no mutex held, `SetPlayerReady("r1", "A")` is neither of the
two error cases, yet it does not return nil: it blocks in `Lock()` on
`s.Mutex`, which it holds itself, and leaves both mutexes held. -/
theorem SetPlayerReady_last_ready_blocks :
    roomA.Rooms = [("r1", 0)] ∧ (roomA.roomAt 0).Players = [("A", some 0)] ∧
    roomA.Mutex = false ∧ (roomA.roomAt 0).Mutex = false ∧
    (roomA.roomAt 0).GameStarted = false ∧ (roomA.playerAt 0).IsReady = false ∧
    (SetPlayerReady noErr "r1" "A" (Exec.start roomA)).out = Outcome.blocked LockId.server ∧
    (SetPlayerReady noErr "r1" "A" (Exec.start roomA)).out ≠ Outcome.returned none ∧
    (SetPlayerReady noErr "r1" "A" (Exec.start roomA)).ex.srv.Mutex = true ∧
    ((SetPlayerReady noErr "r1" "A" (Exec.start roomA)).ex.srv.roomAt 0).Mutex = true := by
  decide

/-- C10, at the failing input: in room "r1" with the single player A the call
`SetPlayerReady("r1", "A")` calls `Lock()` on `s.Mutex`, on the room's mutex
and then, through `BroadcastGameState`, on `s.Mutex` again while the room's
mutex is held: its lock calls break the discipline, which the first two alone
keep. -/
theorem SetPlayerReady_lock_order_violated :
    (SetPlayerReady noErr "r1" "A" (Exec.start roomA)).ex.locks =
      [LockEv.lock LockId.server, LockEv.lock (LockId.room 0), LockEv.lock LockId.server] ∧
    lockOrder [] (SetPlayerReady noErr "r1" "A" (Exec.start roomA)).ex.locks = false ∧
    lockOrder [] [LockEv.lock LockId.server, LockEv.lock (LockId.room 0)] = true := by
  decide

/-- C4, at the failing input: in room "r1" with A and B, the message
`update {field: <all zero>, currentBlock: "I", score: 0}` read by A's session
makes the handler panic; nothing is sent to B. -/
theorem update_message_panics :
    (roomAB.roomAt 0).Players = [("A", some 0), ("B", some 1)] ∧
    Msg.decoded updateMsg = true ∧
    (handleMessage noErr "r1" 0 updateMsg (Exec.start roomAB)).out = Outcome.panicked ∧
    (handleMessage noErr "r1" 0 updateMsg (Exec.start roomAB)).ex.sends = [] ∧
    (sessionRun noErr "A" "r1" 0 [updateMsg] (Exec.start roomAB)).out = Outcome.panicked ∧
    (sessionRun noErr "A" "r1" 0 [updateMsg] (Exec.start roomAB)).ex.sends = [] := by
  decide

/-- C5, at the failing input: in room "r1" with A and B, an "update" message
whose field is a string makes the handler of A's session panic; the message
loop ends without handling the next message, and the deferred teardown
removes A from the room. -/
theorem malformed_update_ends_session :
    (roomAB.roomAt 0).Players = [("A", some 0), ("B", some 1)] ∧
    Msg.decoded malformedMsg = true ∧
    (handleMessage noErr "r1" 0 malformedMsg (Exec.start roomAB)).out = Outcome.panicked ∧
    (messageLoop noErr "r1" 0 [malformedMsg, updateMsg] (Exec.start roomAB)).out =
      Outcome.panicked ∧
    (sessionRun noErr "A" "r1" 0 [malformedMsg, updateMsg] (Exec.start roomAB)).out =
      Outcome.panicked ∧
    ((sessionRun noErr "A" "r1" 0 [malformedMsg, updateMsg]
      (Exec.start roomAB)).ex.srv.roomAt 0).Players = [("B", some 1)] := by
  decide

/-- C9, at the failing input: in room "r1" with A and B, an "update" message
with score 7 read by A's session panics and leaves A's stored score 0; and a
message map whose field does hold a `[20][10]int` (all ones) with score 7 is
broadcast to B, while A's stored score and field stay 0 and all-zero, which
is what the synchronizer then builds A's state from. -/
theorem update_not_stored :
    Msg.decoded scoreMsg = true ∧
    (handleMessage noErr "r1" 0 scoreMsg (Exec.start roomAB)).out = Outcome.panicked ∧
    ((handleMessage noErr "r1" 0 scoreMsg (Exec.start roomAB)).ex.srv.playerAt 0).Score = 0 ∧
    (handleMessage noErr "r1" 0 gridMsg (Exec.start roomAB)).out = Outcome.returned () ∧
    (handleMessage noErr "r1" 0 gridMsg (Exec.start roomAB)).ex.sends =
      [⟨1, 2, ⟨"A", List.replicate 20 (List.replicate 10 1), "T", 7⟩, false⟩] ∧
    ((handleMessage noErr "r1" 0 gridMsg (Exec.start roomAB)).ex.srv.playerAt 0).Score = 0 ∧
    ((handleMessage noErr "r1" 0 gridMsg (Exec.start roomAB)).ex.srv.playerAt 0).Field =
      zeroGrid ∧
    syncState ((handleMessage noErr "r1" 0 gridMsg (Exec.start roomAB)).ex.srv.playerAt 0) =
      ⟨"A", zeroGrid, "exampleBlock", 0⟩ := by
  decide

/-- A player without a connection, or a nil `*Player`, in the room makes
`BroadcastGameState` panic when its turn comes: the deferred unlocks run and
nothing is written for it. -/
theorem BroadcastGameState_nil_panics :
    (roomNoConn.roomAt 0).Players = [("A", some 0)] ∧ (roomNoConn.playerAt 0).Conn = none ∧
    (BroadcastGameState noErr "r1" ⟨"B", zeroGrid, "I", 0⟩ (Exec.start roomNoConn)).out =
      Outcome.panicked ∧
    (BroadcastGameState noErr "r1" ⟨"B", zeroGrid, "I", 0⟩ (Exec.start roomNoConn)).ex.sends =
      [] ∧
    (BroadcastGameState noErr "r1" ⟨"B", zeroGrid, "I", 0⟩
      (Exec.start roomNoConn)).ex.srv.Mutex = false ∧
    (roomNilPlayer.roomAt 0).Players = [("A", none)] ∧
    (BroadcastGameState noErr "r1" ⟨"B", zeroGrid, "I", 0⟩ (Exec.start roomNilPlayer)).out =
      Outcome.panicked ∧
    (SetPlayerReady noErr "r1" "A" (Exec.start roomNilPlayer)).out = Outcome.panicked ∧
    ((SetPlayerReady noErr "r1" "A" (Exec.start roomNilPlayer)).ex.srv.roomAt 0).GameStarted =
      false := by
  decide

/-! ## The lock discipline -/

/-- The lock calls of `CreateRoom`, `JoinRoom`, `BroadcastGameState` and the
session teardown keep the discipline, on every server. -/
theorem lockOrder_kept (werr : Nat → Bool) (s : Server) (roomID playerID : String)
    (player : Option Nat) (state : GameState) :
    lockOrder [] (CreateRoom roomID (Exec.start s)).ex.locks = true ∧
    lockOrder [] (JoinRoom roomID playerID player (Exec.start s)).ex.locks = true ∧
    lockOrder [] (BroadcastGameState werr roomID state (Exec.start s)).ex.locks = true ∧
    lockOrder [] (teardown roomID playerID (Exec.start s)).ex.locks = true := by
  refine ⟨?_, ?_, ?_, ?_⟩
  · unfold CreateRoom
    split <;> simp [Exec.start, Exec.callLock, Exec.holdServer, Exec.unlockServer, lockOrder]
  · unfold JoinRoom
    simp only [Exec.callLock, Exec.holdServer]
    split
    · simp [Exec.start, lockOrder]
    · split <;>
      · unfold joinLocked
        split <;>
          simp [Exec.start, Exec.callLock, Exec.holdRoom, Exec.unlockRoom, Exec.unlockServer,
            lockOrder]
  · unfold BroadcastGameState
    simp only [Exec.callLock, Exec.holdServer]
    split
    · simp [Exec.start, lockOrder]
    · split
      · simp [Exec.start, Exec.unlockServer, lockOrder]
      · split <;>
          simp [Exec.start, Exec.holdRoom, Exec.unlockRoom, Exec.unlockServer, sendLoop_locks,
            lockOrder]
  · unfold teardown
    split
    · simp [Exec.start, lockOrder]
    · split <;>
        simp [Exec.start, Exec.callLock, Exec.holdRoom, Exec.unlockRoom, lockOrder]


/-- One tick of `PeriodicStateUpdate` on a server with a started room and no
mutex held makes the same nested call: it blocks in the `Lock()` of
`BroadcastGameState` on `s.Mutex` while holding `s.Mutex` and the room's mutex. -/
theorem PeriodicTick_started_blocks :
    (PeriodicTick noErr (Exec.start startedFree)).out = Outcome.blocked LockId.server ∧
    (PeriodicTick noErr (Exec.start startedFree)).ex.locks =
      [LockEv.lock LockId.server, LockEv.lock (LockId.room 0), LockEv.lock LockId.server] ∧
    lockOrder [] (PeriodicTick noErr (Exec.start startedFree)).ex.locks = false ∧
    (PeriodicTick noErr (Exec.start roomAB)).out = Outcome.returned () ∧
    lockOrder [] (PeriodicTick noErr (Exec.start roomAB)).ex.locks = true := by
  decide

end TinyTetris
